import Mathlib

/-! NeighborhoodThreeJs: the geospatial-to-solid pipeline of `main.js`.

A shallow embedding of the data-loading and interaction logic of `main.js`:
`projectCoord`, `isInBounds`, `loadWalkways`, the building loop of
`loadSplitBuildings`/`loadBatch`, and `handlePointerClick`/`highlightBuilding`.

Conventions of the embedding:

* JavaScript numbers that carry coordinates are exact rationals (`ℚ`); the
  rounding of IEEE doubles is not modelled, and a decimal literal of the source
  denotes the rational it spells.
* The rendering toolkit is external: a `THREE.Shape`/`THREE.Path` is the list of
  the `moveTo`/`lineTo` commands it received, a mesh is the record of the values
  the source stores into it, and the scene graph is the list of meshes added to
  `campusGroup`, oldest first.
* A promise callback runs to completion; an exception thrown inside it leaves
  every mutation made before the throw in place.
-/

namespace Neighborhood

/-! ## Coordinates and projection -/

/-- A geographic pair `[lon, lat]`. -/
abbrev Coord := ℚ × ℚ

/-- A ring: an ordered sequence of geographic pairs. -/
abbrev Ring := List Coord

/-- `projectCoord([lon, lat])` of `main.js`, lines 72-75. -/
def projectCoord (c : Coord) : ℚ × ℚ :=
  let scale : ℚ := 100000
  ((c.1 - 20.96) * scale, (c.2 - 41.985) * scale)

/-! ## Bounds filter -/

/-- The record type of the constant `BOUNDS`. -/
structure Bounds where
  minLon : ℚ
  maxLon : ℚ
  minLat : ℚ
  maxLat : ℚ

/-- The constant `BOUNDS` of `main.js`, lines 111-116. -/
def BOUNDS : Bounds where
  minLon := 20.95853286124489
  maxLon := 20.96584573595831
  minLat := 41.98350594518007
  maxLat := 41.994342701395055

/-- `isInBounds(coords)` of `main.js`, lines 118-123: `Array.prototype.every`
over the four comparisons. -/
def isInBounds (coords : Ring) : Bool :=
  coords.all fun coord =>
    decide (coord.1 ≥ BOUNDS.minLon) && decide (coord.1 ≤ BOUNDS.maxLon) &&
    decide (coord.2 ≥ BOUNDS.minLat) && decide (coord.2 ≤ BOUNDS.maxLat)

/-- The four corners of `BOUNDS`, as a ring. -/
def cornerRing : Ring :=
  [(BOUNDS.minLon, BOUNDS.minLat), (BOUNDS.maxLon, BOUNDS.minLat),
   (BOUNDS.maxLon, BOUNDS.maxLat), (BOUNDS.minLon, BOUNDS.maxLat)]

/-! ## JavaScript values read from feature attributes -/

/-- A JavaScript number: `NaN`, the two infinities, or a finite value (an exact
rational; `+0` and `-0` are both `fin 0`). -/
inductive JsNum where
  | nan
  | posInf
  | negInf
  | fin (q : ℚ)
  deriving DecidableEq

/-- The `*` operator on numbers. -/
def JsNum.mul : JsNum → JsNum → JsNum
  | .nan, _ => .nan
  | _, .nan => .nan
  | .fin a, .fin b => .fin (a * b)
  | .fin a, .posInf => if a = 0 then .nan else if 0 < a then .posInf else .negInf
  | .fin a, .negInf => if a = 0 then .nan else if 0 < a then .negInf else .posInf
  | .posInf, .fin b => if b = 0 then .nan else if 0 < b then .posInf else .negInf
  | .negInf, .fin b => if b = 0 then .nan else if 0 < b then .negInf else .posInf
  | .posInf, .posInf => .posInf
  | .negInf, .negInf => .posInf
  | .posInf, .negInf => .negInf
  | .negInf, .posInf => .negInf

/-- `Math.max(a, b)` on numbers. -/
def JsNum.max : JsNum → JsNum → JsNum
  | .nan, _ => .nan
  | _, .nan => .nan
  | .posInf, _ => .posInf
  | _, .posInf => .posInf
  | .negInf, b => b
  | a, .negInf => a
  | .fin a, .fin b => .fin (Max.max a b)

/-- Truthiness of a number: every number but `NaN` and zero. -/
def JsNum.truthy (n : JsNum) : Bool :=
  !(decide (n = .nan) || decide (n = .fin 0))

/-- The expression `n || d` on numbers. -/
def JsNum.orElse (n d : JsNum) : JsNum :=
  if n.truthy then n else d

/-- A value a decoded attribute can hold (`undefined` for an absent key);
`object` is a plain object. Arrays are not modelled. -/
inductive JsValue where
  | undefined
  | null
  | bool (b : Bool)
  | num (n : JsNum)
  | str (s : String)
  | object

/-- The white space `StringToNumber` strips from both ends. -/
def isStrWhiteSpace (c : Char) : Bool :=
  c.toNat ∈ [0x09, 0x0A, 0x0B, 0x0C, 0x0D, 0x20, 0xA0, 0x1680, 0x2028, 0x2029, 0x202F,
    0x205F, 0x3000, 0xFEFF] || (0x2000 ≤ c.toNat && c.toNat ≤ 0x200A)

/-- The value of a digit character, in any base up to sixteen. -/
def digitValue (c : Char) : Option Nat :=
  if '0'.toNat ≤ c.toNat ∧ c.toNat ≤ '9'.toNat then some (c.toNat - '0'.toNat)
  else if 'a'.toNat ≤ c.toNat ∧ c.toNat ≤ 'f'.toNat then some (c.toNat - 'a'.toNat + 10)
  else if 'A'.toNat ≤ c.toNat ∧ c.toNat ≤ 'F'.toNat then some (c.toNat - 'A'.toNat + 10)
  else none

/-- Whether `c` is a digit of the given base. -/
def isDigitOf (base : Nat) (c : Char) : Bool :=
  match digitValue c with
  | some d => decide (d < base)
  | none => false

/-- The number spelled by a digit string. -/
def digitsValue (base : Nat) (cs : List Char) : Nat :=
  cs.foldl (fun acc c => acc * base + (digitValue c).getD 0) 0

/-- The digits after `0x`, `0o` or `0b`. -/
def parseRadix (base : Nat) (cs : List Char) : JsNum :=
  if cs ≠ [] ∧ cs.all (isDigitOf base) then .fin (digitsValue base cs) else .nan

/-- The signed integer after `e` or `E`. -/
def parseExponent (cs : List Char) : Option ℤ :=
  let (neg, ds) :=
    match cs with
    | '+' :: r => (false, r)
    | '-' :: r => (true, r)
    | _ => (false, cs)
  if ds ≠ [] ∧ ds.all (isDigitOf 10) then
    some (if neg then -(digitsValue 10 ds : ℤ) else (digitsValue 10 ds : ℤ))
  else none

/-- An unsigned decimal literal: `digits [. [digits]] [exponent]` or
`. digits [exponent]`. -/
def parseUnsignedDecimal (cs : List Char) : Option ℚ :=
  let (ip, r1) := cs.span (isDigitOf 10)
  let (fp, r2) :=
    match r1 with
    | '.' :: r => r.span (isDigitOf 10)
    | _ => ([], r1)
  if ip = [] ∧ fp = [] then none
  else
    let mant : ℚ := (digitsValue 10 (ip ++ fp) : ℚ) / (10 : ℚ) ^ fp.length
    match r2 with
    | [] => some mant
    | e :: r3 =>
      if e = 'e' ∨ e = 'E' then (parseExponent r3).map fun k => mant * (10 : ℚ) ^ k
      else none

/-- A signed decimal literal or a signed `Infinity`. -/
def parseStrDecimal (cs : List Char) : JsNum :=
  let (neg, body) :=
    match cs with
    | '+' :: r => (false, r)
    | '-' :: r => (true, r)
    | _ => (false, cs)
  if body = "Infinity".data then (if neg then .negInf else .posInf)
  else
    match parseUnsignedDecimal body with
    | some q => .fin (if neg then -q else q)
    | none => .nan

/-- Strip white space from both ends. -/
def trimWhite (cs : List Char) : List Char :=
  ((cs.dropWhile isStrWhiteSpace).reverse.dropWhile isStrWhiteSpace).reverse

/-- `Number(s)` for a string `s`: the empty (or blank) string is `0`, a literal
of the numeric grammar is its value, anything else is `NaN`. -/
def stringToNumber (s : String) : JsNum :=
  match trimWhite s.data with
  | [] => .fin 0
  | '0' :: 'x' :: r => parseRadix 16 r
  | '0' :: 'X' :: r => parseRadix 16 r
  | '0' :: 'o' :: r => parseRadix 8 r
  | '0' :: 'O' :: r => parseRadix 8 r
  | '0' :: 'b' :: r => parseRadix 2 r
  | '0' :: 'B' :: r => parseRadix 2 r
  | cs => parseStrDecimal cs

/-- `Number(v)`. -/
def toNumber : JsValue → JsNum
  | .undefined => .nan
  | .null => .fin 0
  | .bool b => if b then .fin 1 else .fin 0
  | .num n => n
  | .str s => stringToNumber s
  | .object => .nan

/-- The expression `(Number(v) || 10) * 3` of `main.js`, line 214, where `v` is
`feature.properties?.estimated_height`. -/
def buildingHeight (v : JsValue) : JsNum :=
  ((toNumber v).orElse (.fin 10)).mul (.fin 3)

/-! ## Decoded documents -/

/-- The `properties` object of a feature: the two attributes the loaders read. -/
structure Properties where
  fill : JsValue
  estimated_height : JsValue

/-- The `geometry` object of a feature, by its `type`. A `GeometryCollection`
has no `coordinates`. -/
inductive Geometry where
  | Point (coordinates : Coord)
  | MultiPoint (coordinates : List Coord)
  | LineString (coordinates : List Coord)
  | MultiLineString (coordinates : List (List Coord))
  | Polygon (coordinates : List Ring)
  | MultiPolygon (coordinates : List (List Ring))
  | GeometryCollection

/-- A decoded feature; either member may be `null` or missing. -/
structure Feature where
  geometry : Option Geometry
  properties : Option Properties

/-- What `fetch(url).then(res => res.json())` settles to: a rejection (the
request or the decoding failed) or the decoded document's `features` (`none`
when the member is missing). -/
inductive Response where
  | rejected
  | json (features : Option (List Feature))

/-! ## Shape assembly -/

/-- A command received by a `THREE.Path` (or `THREE.Shape`), with its two
arguments. -/
inductive PathCmd where
  | moveTo (x y : JsNum)
  | lineTo (x y : JsNum)
  deriving DecidableEq

/-- The planar point a command carries. -/
def PathCmd.point : PathCmd → JsNum × JsNum
  | .moveTo x y => (x, y)
  | .lineTo x y => (x, y)

/-- A path: the commands it received, in order. -/
abbrev Path := List PathCmd

/-- A projected pair as the two numbers handed to `moveTo`/`lineTo`. -/
def planar (p : ℚ × ℚ) : JsNum × JsNum :=
  (.fin p.1, .fin p.2)

/-- The loop `ring.forEach((coord, i) => { const [x, y] = projectCoord(coord);
i === 0 ? path.moveTo(x, y) : path.lineTo(x, y); })` shared by `loadWalkways`,
`loadGeoJson` and `loadBatch`, on an array of coordinate pairs. -/
def tracePath (ring : Ring) : Path :=
  ring.enum.map fun (i, coord) =>
    let (x, y) := projectCoord coord
    if i = 0 then .moveTo (.fin x) (.fin y) else .lineTo (.fin x) (.fin y)

/-- The same loop on an array of `n` elements that are arrays of coordinate
pairs: `projectCoord` destructures two arrays, both differences are `NaN`. -/
def nanPath (n : Nat) : Path :=
  (List.range n).map fun i => if i = 0 then .moveTo .nan .nan else .lineTo .nan .nan

/-- A `THREE.Shape`: its own boundary commands and its `holes`. -/
structure Shape where
  curve : Path
  holes : List Path
  deriving DecidableEq

/-! ## Walkways -/

/-- A mesh added by `loadWalkways`: the extruded shape, the `depth` and
`bevelEnabled` settings, and the two shadow flags. All of them carry the shared
`walkwayMaterial`. -/
structure WalkwayMesh where
  shape : Shape
  depth : ℚ
  bevelEnabled : Bool
  castShadow : Bool
  receiveShadow : Bool
  deriving DecidableEq

/-- The comparison `fill === '#ff0000'`. -/
def isHoleFill : JsValue → Bool
  | .str s => decide (s = "#ff0000")
  | _ => false

/-- `data.features.filter(f => keep(f.properties.fill))`: reading `fill` of a
feature whose `properties` is `null` or missing throws (`none`). -/
def filterByFill (keep : JsValue → Bool) : List Feature → Option (List Feature)
  | [] => some []
  | f :: fs =>
    match f.properties with
    | none => none
    | some p =>
      match filterByFill keep fs with
      | none => none
      | some rest => some (if keep p.fill then f :: rest else rest)

/-- The path traced by `feature.geometry.coordinates[0].forEach(...)`, lines
85-88 and 94-97; `none` when the statement throws: `geometry` is missing,
`coordinates` is missing, `coordinates[0]` is `undefined` or a number, or its
elements are numbers (which `projectCoord` cannot destructure). -/
def outerPath (feature : Feature) : Option Path :=
  match feature.geometry with
  | none => none
  | some (.Point _) => none
  | some (.MultiPoint _) => none
  | some (.LineString _) => none
  | some (.MultiLineString []) => none
  | some (.MultiLineString (line :: _)) => some (tracePath line)
  | some (.Polygon []) => none
  | some (.Polygon (ring :: _)) => some (tracePath ring)
  | some (.MultiPolygon []) => none
  | some (.MultiPolygon (polygon :: _)) => some (nanPath polygon.length)
  | some .GeometryCollection => none

/-- `holeFeatures.map(holeFeature => ...)`, lines 83-90: the first hole feature
whose path cannot be traced throws (`none`). -/
def holePaths : List Feature → Option (List Path)
  | [] => some []
  | holeFeature :: rest =>
    match outerPath holeFeature with
    | none => none
    | some holePath =>
      match holePaths rest with
      | none => none
      | some paths => some (holePath :: paths)

/-- `mainPolygons.forEach(mainFeature => ...)`, lines 92-107: the meshes added
to `campusGroup`; the first main feature whose path cannot be traced throws and
ends the loop, after the meshes before it were added. -/
def addMainPolygons (allHolePaths : List Path) : List Feature → List WalkwayMesh
  | [] => []
  | mainFeature :: rest =>
    match outerPath mainFeature with
    | none => []
    | some curve =>
      { shape := { curve := curve, holes := allHolePaths }
        depth := 0.1
        bevelEnabled := false
        castShadow := false
        receiveShadow := true } :: addMainPolygons allHolePaths rest

/-- `loadWalkways()` of `main.js`, lines 77-109, on what the fetch settles to:
the meshes added to `campusGroup`, in order. No handler catches a rejection or a
throw; whatever was added before it stays. -/
def loadWalkways (response : Response) : List WalkwayMesh :=
  match response with
  | .rejected => []
  | .json none => []
  | .json (some features) =>
    match filterByFill (fun fill => !isHoleFill fill) features with
    | none => []
    | some mainPolygons =>
      match filterByFill isHoleFill features with
      | none => []
      | some holeFeatures =>
        match holePaths holeFeatures with
        | none => []
        | some allHolePaths => addMainPolygons allHolePaths mainPolygons

/-! ## Buildings -/

/-- The expression `feature.properties?.estimated_height`. -/
def Feature.estimatedHeight (feature : Feature) : JsValue :=
  match feature.properties with
  | some p => p.estimated_height
  | none => .undefined

/-- The array `polygons` of `main.js`, line 206, with each element replaced by
its `polygon[0]` when that is an array of coordinate pairs and by `none` when it
is not (then `polygon[0].forEach`, or `projectCoord` inside it, throws). The
result is `none` when `polygons` itself is `undefined`. -/
def polygonRings : Geometry → Option (List (Option Ring))
  | .Point _ => some [none, none]
  | .MultiPoint coordinates => some (coordinates.map fun _ => none)
  | .LineString coordinates => some (coordinates.map fun _ => none)
  | .MultiLineString coordinates => some (coordinates.map fun _ => none)
  | .Polygon coordinates => some [coordinates.head?]
  | .MultiPolygon coordinates => some (coordinates.map fun polygon => polygon.head?)
  | .GeometryCollection => none

/-- A mesh added by `loadBatch`: the shape, the extrude settings, the palette
slot whose material was cloned, the serial number of the clone (the value of
`buildingMaterialCursor` when it was made), `userData.fileName` and the shadow
flags. -/
structure BuildingMesh where
  shape : Shape
  depth : JsNum
  bevelEnabled : Bool
  paletteIndex : Nat
  materialSerial : Nat
  fileName : String
  castShadow : Bool
  receiveShadow : Bool
  deriving DecidableEq

/-- The mutable state the building callbacks share: the children added to
`campusGroup`, the global `buildingMaterialCursor`, and the `loadedCount` of
`loadSplitBuildings`. -/
structure LoadState where
  scene : List BuildingMesh
  buildingMaterialCursor : Nat
  loadedCount : Nat
  deriving DecidableEq

/-- How a block of statements ends: normally, or by throwing; either way with
the state as mutated so far. -/
inductive Completion where
  | normal (s : LoadState)
  | threw (s : LoadState)
  deriving DecidableEq

/-- The state a completion carries. -/
def Completion.state : Completion → LoadState
  | .normal s => s
  | .threw s => s

/-- `xs.forEach(body)` where `body` may throw: the first throw ends the loop. -/
def forEach {α : Type} (body : LoadState → α → Completion) : LoadState → List α → Completion
  | s, [] => .normal s
  | s, x :: xs =>
    match body s x with
    | .normal s1 => forEach body s1 xs
    | .threw s1 => .threw s1

/-- Drop `p` from the front of `s` when it is there: `replace(/^p/, '')`. -/
def dropLeading (p s : List Char) : List Char :=
  if p.isPrefixOf s then s.drop p.length else s

/-- Drop `p` from the end of `s` when it is there: `replace(/p$/, '')`. -/
def dropTrailing (p s : List Char) : List Char :=
  if p.isSuffixOf s then s.take (s.length - p.length) else s

/-- The expression `fileName.replace(/^building_/, '').replace(/\.geojson$/, '')`. -/
def identityTag (fileName : String) : String :=
  String.mk (dropTrailing ".geojson".data (dropLeading "building_".data fileName.data))

/-- The body of `polygons.forEach(polygon => ...)`, `main.js` lines 207-228.
`paletteSize` is `buildingMaterials.length`; with an empty palette `matDesc` is
`undefined` and `matDesc.material` throws, after the cursor was advanced. -/
def addPolygon (paletteSize : Nat) (fileName : String) (feature : Feature)
    (s : LoadState) (polygon0 : Option Ring) : Completion :=
  match polygon0 with
  | none => .threw s
  | some ring =>
    let shape : Shape := { curve := tracePath ring, holes := [] }
    let height := buildingHeight feature.estimatedHeight
    let cursor := s.buildingMaterialCursor
    let s1 := { s with buildingMaterialCursor := cursor + 1 }
    if paletteSize = 0 then .threw s1
    else
      let mesh : BuildingMesh :=
        { shape := shape
          depth := height
          bevelEnabled := false
          paletteIndex := cursor % paletteSize
          materialSerial := cursor
          fileName := identityTag fileName
          castShadow := true
          receiveShadow := true }
      .normal { s1 with scene := s1.scene ++ [mesh] }

/-- The body of `data.features.forEach(feature => ...)`, lines 205-229. -/
def addFeature (paletteSize : Nat) (fileName : String) (s : LoadState)
    (feature : Feature) : Completion :=
  match feature.geometry with
  | none => .threw s
  | some geometry =>
    match polygonRings geometry with
    | none => .threw s
    | some polygons => forEach (addPolygon paletteSize fileName feature) s polygons

/-- The `then(data => ...)` callback of one building source, lines 204-231;
`features` is `data.features` (`none` when the member is missing). -/
def onData (paletteSize : Nat) (fileName : String) (s : LoadState)
    (features : Option (List Feature)) : Completion :=
  match features with
  | none => .threw s
  | some fs =>
    match forEach (addFeature paletteSize fileName) s fs with
    | .normal s1 => .normal { s1 with loadedCount := s1.loadedCount + 1 }
    | .threw s1 => .threw s1

/-- One promise of the batch, lines 201-232, settled: `catch(err => {})`
swallows a rejection and a throw alike. -/
def settle (paletteSize : Nat) (s : LoadState) (fileName : String)
    (response : Response) : LoadState :=
  match response with
  | .rejected => s
  | .json features => (onData paletteSize fileName s features).state

/-- Whether a settled source reached `loadedCount++`. -/
def succeeded (paletteSize : Nat) (s : LoadState) (fileName : String)
    (response : Response) : Bool :=
  match response with
  | .rejected => false
  | .json features =>
    match onData paletteSize fileName s features with
    | .normal _ => true
    | .threw _ => false

/-- The callbacks of one batch run to completion one after another, in the
order `arrivals` in which the responses arrive. -/
def settleAll (paletteSize : Nat) (s : LoadState) (arrivals : List (String × Response)) :
    LoadState :=
  arrivals.foldl (fun acc a => settle paletteSize acc a.1 a.2) s

/-- The state before any building is loaded. -/
def LoadState.initial : LoadState :=
  { scene := [], buildingMaterialCursor := 0, loadedCount := 0 }

/-! ## The batch controller -/

/-- The value of `buildingFiles.length`. -/
def buildingFileCount : Nat := 114

/-- The constant `buildingsPerBatch`. -/
def buildingsPerBatch : Nat := 100

/-- The state of the controller when `loadBatch(startIndex)` is called. -/
structure BatchCall where
  startIndex : Nat
  loadedCount : Nat
  deriving DecidableEq

/-- One call `loadBatch(startIndex)` of `main.js`, lines 194-237, up to the
resolution of `Promise.all`: `reached i` tells whether the callback of
`buildingFiles[i]` reaches `loadedCount++`. The result is the call the timer
will make, or `none` when no further batch is scheduled. -/
def loadBatch (reached : Nat → Bool) (call : BatchCall) : Option BatchCall :=
  let endIndex := min (call.startIndex + buildingsPerBatch) buildingFileCount
  let indices := List.range' call.startIndex (endIndex - call.startIndex)
  let loadedCount := call.loadedCount + (indices.filter reached).length
  if loadedCount < buildingFileCount then
    some { startIndex := endIndex, loadedCount := loadedCount }
  else none

/-- The `n`-th call of `loadBatch` made by `loadSplitBuildings`, counting from
the call `loadBatch(0)` of line 238; `none` when ingestion stopped before. -/
def batchCall (reached : Nat → Bool) : Nat → Option BatchCall
  | 0 => some { startIndex := 0, loadedCount := 0 }
  | n + 1 => (batchCall reached n).bind (loadBatch reached)

/-! ## Hit test and highlight -/

/-- The fields of an intersected object that the click handler reads:
`userData.fileName` and the identity of the material instance it refers to
(`none` when the object has no `material`). -/
structure SceneObject where
  fileName : Option String
  material : Option Nat
  deriving DecidableEq

/-- The colour `0x000000`. -/
def neutral : Nat := 0x000000

/-- The colour `0x1a304c`. -/
def highlightColor : Nat := 0x1a304c

/-- The interaction state: for each material instance, the colour of its
`emissive` (`none` when the material has no `emissive`), and the global
`highlightedBuilding`. -/
structure HighlightState where
  emissive : Nat → Option Nat
  highlightedBuilding : Option SceneObject

/-- The expression `object?.material?.emissive`: the material instance whose
`emissive` exists. -/
def emissiveOf (s : HighlightState) (object : Option SceneObject) : Option Nat :=
  match object with
  | none => none
  | some o =>
    match o.material with
    | none => none
    | some m => if (s.emissive m).isSome then some m else none

/-- The call `material.emissive.setHex(color)`. -/
def setHex (s : HighlightState) (m : Nat) (color : Nat) : HighlightState :=
  { s with emissive := fun k => if k = m then some color else s.emissive k }

/-- `highlightBuilding(mesh)` of `main.js`, lines 256-264. -/
def highlightBuilding (s : HighlightState) (mesh : Option SceneObject) : HighlightState :=
  let s1 :=
    match emissiveOf s s.highlightedBuilding with
    | some m => setHex s m neutral
    | none => s
  match emissiveOf s1 mesh with
  | some m => { setHex s1 m highlightColor with highlightedBuilding := mesh }
  | none => { s1 with highlightedBuilding := none }

/-- Truthiness of `userData.fileName`: present and not the empty string. -/
def tagged (object : SceneObject) : Bool :=
  match object.fileName with
  | some name => decide (name ≠ "")
  | none => false

/-- `handlePointerClick(event)` of `main.js`, lines 242-254, on the result
`intersects` of the ray query (the objects hit, nearest first). -/
def handlePointerClick (s : HighlightState) (intersects : List SceneObject) :
    HighlightState :=
  match intersects with
  | mesh :: _ => if tagged mesh then highlightBuilding s (some mesh) else s
  | [] => highlightBuilding s none

/-- An interaction step: a pointer click with its ray-query result, or a direct
call of `highlightBuilding`. -/
inductive Action where
  | click (intersects : List SceneObject)
  | highlight (mesh : Option SceneObject)

/-- One interaction step. -/
def step (s : HighlightState) : Action → HighlightState
  | .click intersects => handlePointerClick s intersects
  | .highlight mesh => highlightBuilding s mesh

/-- A sequence of interaction steps, in order. -/
def run (s : HighlightState) (actions : List Action) : HighlightState :=
  actions.foldl step s

/-- Whether the object's material has a non-neutral `emissive`. -/
def lit (s : HighlightState) (o : SceneObject) : Bool :=
  match o.material with
  | none => false
  | some m =>
    match s.emissive m with
    | none => false
    | some c => decide (c ≠ neutral)

/-- Whether the object is in the list or absent. -/
def Within (scene : List SceneObject) : Option SceneObject → Prop
  | none => True
  | some o => o ∈ scene

/-- Whether every object an action names belongs to the scene. -/
def Action.Within (scene : List SceneObject) : Action → Prop
  | .click intersects => ∀ o ∈ intersects, o ∈ scene
  | .highlight mesh => Neighborhood.Within scene mesh

/-- Each solid owns its material instance: two objects of the scene that refer
to the same material are the same object. -/
def OwnMaterials (scene : List SceneObject) : Prop :=
  ∀ a ∈ scene, ∀ b ∈ scene, ∀ m, a.material = some m → b.material = some m → a = b

/-! ## The depth formula as the specification words it -/

/-- The depth as the specification's formula gives it:
`max(attributeHeight, 10) * 3`, the attribute coerced to a number and `10` used
when it is absent or non-numeric. -/
def maxFormulaDepth (v : JsValue) : JsNum :=
  let h := if toNumber v = .nan then .fin 10 else toNumber v
  (h.max (.fin 10)).mul (.fin 3)

/-! ## What a mesh shows of its source -/

/-- The part of a building mesh that does not depend on the material cursor. -/
structure Footprint where
  shape : Shape
  depth : JsNum
  fileName : String
  deriving DecidableEq

/-- The footprint of a mesh. -/
def BuildingMesh.footprint (mesh : BuildingMesh) : Footprint :=
  { shape := mesh.shape, depth := mesh.depth, fileName := mesh.fileName }

/-- The footprints of the meshes of a scene that do not carry the tag `tag`. -/
def othersOf (tag : String) (scene : List BuildingMesh) : List Footprint :=
  (scene.map BuildingMesh.footprint).filter fun x => decide (x.fileName ≠ tag)

/-- Whether a block ended normally. -/
def Completion.isNormal : Completion → Bool
  | .normal _ => true
  | .threw _ => false

/-! ## Walkway features as the claims speak of them -/

/-- The expression `f.properties?.fill`. -/
def Feature.fill (f : Feature) : JsValue :=
  match f.properties with
  | some p => p.fill
  | none => .undefined

/-- A hole feature: its fill is `#ff0000`. -/
def isHoleFeature (f : Feature) : Bool :=
  isHoleFill f.fill

/-- A main feature: its fill is not `#ff0000`. -/
def isMainFeature (f : Feature) : Bool :=
  !isHoleFill f.fill

/-- The outer ring of a polygon feature: `geometry.coordinates[0]` of a
`Polygon` that has one. -/
def outerRing (f : Feature) : Option Ring :=
  match f.geometry with
  | some (.Polygon (ring :: _)) => some ring
  | _ => none

/-- The projected outer ring of a feature, as planar points. -/
def projectedOuterRing (f : Feature) : List (JsNum × JsNum) :=
  ((outerRing f).getD []).map fun coord => planar (projectCoord coord)

/-! ## What a failing source has built -/

/-- The mesh `loadBatch` builds for one ring when the cursor is `cursor`. -/
def meshAt (paletteSize : Nat) (fileName : String) (cursor : Nat) (feature : Feature)
    (ring : Ring) : BuildingMesh :=
  { shape := { curve := tracePath ring, holes := [] }
    depth := buildingHeight feature.estimatedHeight
    bevelEnabled := false
    paletteIndex := cursor % paletteSize
    materialSerial := cursor
    fileName := identityTag fileName
    castShadow := true
    receiveShadow := true }

/-- The meshes built in order for a list of rings, each with its feature, from
the cursor value `cursor` on. -/
def meshesFrom (paletteSize : Nat) (fileName : String) :
    Nat → List (Feature × Ring) → List BuildingMesh
  | _, [] => []
  | cursor, (feature, ring) :: rest =>
    meshAt paletteSize fileName cursor feature ring ::
      meshesFrom paletteSize fileName (cursor + 1) rest

/-- The rings of a feature's `polygons` that precede its first element without
a ring. -/
def ringsBefore : List (Option Ring) → List Ring
  | some ring :: rest => ring :: ringsBefore rest
  | _ => []

/-- The polygons of a document that precede its first failing point, each with
its feature, in order: all of them when nothing fails. -/
def builtBeforeFeatures : List Feature → List (Feature × Ring)
  | [] => []
  | feature :: rest =>
    match feature.geometry.bind polygonRings with
    | none => []
    | some polygons =>
      (ringsBefore polygons).map (fun ring => (feature, ring)) ++
        (if polygons.all Option.isSome then builtBeforeFeatures rest else [])

/-- The polygons of a response that precede its first failing point. -/
def builtBefore : Response → List (Feature × Ring)
  | .rejected => []
  | .json none => []
  | .json (some features) => builtBeforeFeatures features

/-! ## Invariants and relations used in the proofs -/

/-- The state `s` after the meshes of `built` were added. -/
def advance (paletteSize : Nat) (fileName : String) (s : LoadState)
    (built : List (Feature × Ring)) : LoadState :=
  { s with
    scene := s.scene ++ meshesFrom paletteSize fileName s.buildingMaterialCursor built
    buildingMaterialCursor := s.buildingMaterialCursor + built.length }

/-- A completion from its kind and its state. -/
def Completion.of (ok : Bool) (s : LoadState) : Completion :=
  if ok then .normal s else .threw s

/-- The cursor counts the meshes of the scene and the meshes carry the palette
slots `0, 1, ..., P-1, 0, 1, ...` in order. -/
def CursorInv (paletteSize : Nat) (s : LoadState) : Prop :=
  s.buildingMaterialCursor = s.scene.length ∧
  s.scene.map (fun mesh => mesh.paletteIndex) =
    (List.range s.scene.length).map (fun k => k % paletteSize)

/-- The scene of `t` is the scene of `s` followed by meshes tagged `tag`. -/
def ExtendsBy (tag : String) (s t : LoadState) : Prop :=
  ∃ extra, t.scene = s.scene ++ extra ∧ ∀ mesh ∈ extra, mesh.fileName = tag

/-- Two runs of the same block from the states `s` and `t` end alike and add
meshes of the same footprints. -/
def SameEffect (s t : LoadState) (c d : Completion) : Prop :=
  c.isNormal = d.isNormal ∧
  ∃ extra : List Footprint,
    c.state.scene.map BuildingMesh.footprint = s.scene.map BuildingMesh.footprint ++ extra ∧
    d.state.scene.map BuildingMesh.footprint = t.scene.map BuildingMesh.footprint ++ extra

/-- The colour of the object's `emissive`, when its material has one. -/
def emissiveColor (s : HighlightState) (o : SceneObject) : Option Nat :=
  match o.material with
  | none => none
  | some m => s.emissive m

/-- Every emissive colour is neutral. -/
def AllNeutral (s : HighlightState) : Prop :=
  ∀ m c, s.emissive m = some c → c = neutral

/-- The invariant of the interaction: a non-neutral emissive belongs to the
material of `highlightedBuilding`, and `highlightedBuilding` is an object of the
scene whose emissive carries the highlight colour. -/
def HighlightInv (scene : List SceneObject) (s : HighlightState) : Prop :=
  (∀ m c, s.emissive m = some c → c ≠ neutral →
    ∃ o, s.highlightedBuilding = some o ∧ o.material = some m) ∧
  (∀ o, s.highlightedBuilding = some o →
    o ∈ scene ∧ ∃ m, o.material = some m ∧ s.emissive m = some highlightColor)

/-- The state after the first statement of `highlightBuilding`. -/
def resetPrevious (s : HighlightState) : HighlightState :=
  match emissiveOf s s.highlightedBuilding with
  | some m => setHex s m neutral
  | none => s

/-! ## Sample inputs -/

/-- A well-formed feature: one square, no attributes. -/
def squareFeature : Feature :=
  { geometry := some (.Polygon [[(20.96, 41.985), (20.961, 41.985), (20.961, 41.986),
      (20.96, 41.986)]])
    properties := none }

/-- A walkway square whose fill is not `#ff0000`. -/
def mainWalkway : Feature :=
  { geometry := some (.Polygon [[(20.96, 41.985), (20.961, 41.985), (20.961, 41.986),
      (20.96, 41.986)]])
    properties := some { fill := .str "#cccccc", estimated_height := .undefined } }

/-- A walkway hole: a triangle whose fill is `#ff0000`. -/
def holeWalkway : Feature :=
  { geometry := some (.Polygon [[(20.9602, 41.9852), (20.9604, 41.9852), (20.9604, 41.9854)]])
    properties := some { fill := .str "#ff0000", estimated_height := .undefined } }

/-- A point feature of a walkway collection: it has properties and no fill. -/
def pointWalkway : Feature :=
  { geometry := some (.Point (20.96, 41.985))
    properties := some { fill := .undefined, estimated_height := .undefined } }

/-- A feature without `geometry`. -/
def brokenFeature : Feature :=
  { geometry := none, properties := none }

/-- A document whose second feature is malformed. -/
def halfBrokenDocument : Response :=
  .json (some [squareFeature, brokenFeature])

/-- A building mesh as the click handler sees it. -/
def buildingA : SceneObject := { fileName := some "1", material := some 1 }

/-- Another building mesh. -/
def buildingB : SceneObject := { fileName := some "2", material := some 2 }

/-- The ground plane: no identity tag. -/
def groundObject : SceneObject := { fileName := none, material := some 0 }

/-- A scene of the ground and two buildings. -/
def sampleScene : List SceneObject := [groundObject, buildingA, buildingB]

/-- Every material has the neutral emissive and nothing is highlighted. -/
def HighlightState.initial : HighlightState :=
  { emissive := fun _ => some neutral, highlightedBuilding := none }

/-! # Theorems -/

/-! ## Projection and bounds -/

/-- C10: `projectCoord` returns `((lon - 20.96) * 100000, (lat - 41.985) * 100000)`
for every pair, sends the origin `(20.96, 41.985)` to `(0, 0)`, and is injective. -/
theorem projectCoord_affine_injective :
    (∀ lon lat : ℚ,
      projectCoord (lon, lat) = ((lon - 20.96) * 100000, (lat - 41.985) * 100000)) ∧
    projectCoord (20.96, 41.985) = (0, 0) ∧
    Function.Injective projectCoord := by
  refine ⟨fun lon lat => rfl, ?_, ?_⟩
  · simp [projectCoord]
  · intro a b h
    simp only [projectCoord, Prod.mk.injEq] at h
    obtain ⟨h1, h2⟩ := h
    have e1 : a.1 = b.1 := by
      have := mul_right_cancel₀ (by norm_num : (100000 : ℚ) ≠ 0) h1
      linarith
    have e2 : a.2 = b.2 := by
      have := mul_right_cancel₀ (by norm_num : (100000 : ℚ) ≠ 0) h2
      linarith
    exact Prod.ext e1 e2

/-- C9: `isInBounds` is true exactly when every pair of the ring lies in the
closed rectangle `BOUNDS`; the empty ring and the ring of the four corners are
in bounds, and a ring with a point strictly outside an edge is out of bounds. -/
theorem isInBounds_iff :
    (∀ ring : Ring, isInBounds ring = true ↔
      ∀ p ∈ ring, BOUNDS.minLon ≤ p.1 ∧ p.1 ≤ BOUNDS.maxLon ∧
        BOUNDS.minLat ≤ p.2 ∧ p.2 ≤ BOUNDS.maxLat) ∧
    isInBounds [] = true ∧
    isInBounds cornerRing = true ∧
    (∀ (ring : Ring) (p : Coord), p ∈ ring →
      (p.1 < BOUNDS.minLon ∨ BOUNDS.maxLon < p.1 ∨ p.2 < BOUNDS.minLat ∨ BOUNDS.maxLat < p.2) →
      isInBounds ring = false) := by
  have key : ∀ ring : Ring, isInBounds ring = true ↔
      ∀ p ∈ ring, BOUNDS.minLon ≤ p.1 ∧ p.1 ≤ BOUNDS.maxLon ∧
        BOUNDS.minLat ≤ p.2 ∧ p.2 ≤ BOUNDS.maxLat := by
    intro ring
    simp only [isInBounds, List.all_eq_true, Bool.and_eq_true, decide_eq_true_eq, ge_iff_le]
    constructor
    · intro h p hp
      obtain ⟨⟨⟨h1, h2⟩, h3⟩, h4⟩ := h p hp
      exact ⟨h1, h2, h3, h4⟩
    · intro h p hp
      obtain ⟨h1, h2, h3, h4⟩ := h p hp
      exact ⟨⟨⟨h1, h2⟩, h3⟩, h4⟩
  refine ⟨key, (key []).2 (by simp), (key cornerRing).2 ?_, ?_⟩
  · intro p hp
    simp only [cornerRing, List.mem_cons, List.mem_singleton, List.not_mem_nil, or_false] at hp
    rcases hp with rfl | rfl | rfl | rfl <;> norm_num [BOUNDS]
  · intro ring p hp hout
    by_contra hne
    have ht : isInBounds ring = true := by simpa using hne
    obtain ⟨h1, h2, h3, h4⟩ := (key ring).1 ht p hp
    rcases hout with h | h | h | h
    · exact absurd h1 (not_le.mpr h)
    · exact absurd h2 (not_le.mpr h)
    · exact absurd h3 (not_le.mpr h)
    · exact absurd h4 (not_le.mpr h)

/-- Witness of `isInBounds_iff`: a ring one unit west of `BOUNDS` is out of
bounds. -/
theorem isInBounds_iff_witness :
    isInBounds [(BOUNDS.minLon, BOUNDS.minLat), (BOUNDS.minLon - 1, BOUNDS.minLat)] = false :=
  isInBounds_iff.2.2.2 _ (BOUNDS.minLon - 1, BOUNDS.minLat) (by simp) (Or.inl (by norm_num))

/-! ## Building height -/

theorem toNumber_five : toNumber (.str "5") = .fin 5 := by
  simp [toNumber, stringToNumber, trimWhite, isStrWhiteSpace, parseStrDecimal,
    parseUnsignedDecimal, isDigitOf, digitValue, digitsValue, List.span, List.span.loop]

theorem toNumber_abc : toNumber (.str "abc") = .nan := by
  simp [toNumber, stringToNumber, trimWhite, isStrWhiteSpace, parseStrDecimal,
    parseUnsignedDecimal, isDigitOf, digitValue, List.span, List.span.loop]

theorem buildingHeight_of_falsy (v : JsValue) (h : toNumber v = .nan ∨ toNumber v = .fin 0) :
    buildingHeight v = .fin 30 := by
  rcases h with h | h <;>
    simp [buildingHeight, h, JsNum.orElse, JsNum.truthy, JsNum.mul] <;> norm_num

theorem buildingHeight_of_truthy (v : JsValue) (h1 : toNumber v ≠ .nan)
    (h2 : toNumber v ≠ .fin 0) : buildingHeight v = (toNumber v).mul (.fin 3) := by
  simp [buildingHeight, JsNum.orElse, JsNum.truthy, h1, h2]

theorem buildingHeight_five : buildingHeight (.str "5") = .fin 15 := by
  rw [buildingHeight_of_truthy _ (by simp [toNumber_five]) (by simp [toNumber_five]),
    toNumber_five]
  simp [JsNum.mul]; norm_num

/-- C6: the depth is 30 when `estimated_height` is absent, 15 when it is the
string "5", 30 when it is the string "abc"; for every attribute value it is 30
when the coerced number is `NaN` or 0 and three times the coerced number
otherwise. -/
theorem buildingHeight_resolution :
    (∀ geometry, buildingHeight
      ({ geometry := geometry, properties := none } : Feature).estimatedHeight = .fin 30) ∧
    buildingHeight .undefined = .fin 30 ∧
    buildingHeight (.str "5") = .fin 15 ∧
    buildingHeight (.str "abc") = .fin 30 ∧
    (∀ v, toNumber v = .nan ∨ toNumber v = .fin 0 → buildingHeight v = .fin 30) ∧
    (∀ v, toNumber v ≠ .nan → toNumber v ≠ .fin 0 →
      buildingHeight v = (toNumber v).mul (.fin 3)) := by
  refine ⟨fun _ => ?_, ?_, ?_, ?_, buildingHeight_of_falsy, buildingHeight_of_truthy⟩
  · exact buildingHeight_of_falsy _ (Or.inl rfl)
  · exact buildingHeight_of_falsy _ (Or.inl rfl)
  · exact buildingHeight_five
  · exact buildingHeight_of_falsy _ (Or.inl toNumber_abc)

/-- Witness of `buildingHeight_resolution`: a numeric height of 7 gives depth 21,
and the `null` attribute (coerced to 0) gives depth 30. -/
theorem buildingHeight_resolution_witness :
    buildingHeight (.num (.fin 7)) = (JsNum.fin 7).mul (.fin 3) ∧
    buildingHeight .null = .fin 30 :=
  ⟨buildingHeight_resolution.2.2.2.2.2 (.num (.fin 7)) (by simp [toNumber])
      (by simp [toNumber]),
    buildingHeight_resolution.2.2.2.2.1 .null (Or.inr rfl)⟩

/-- C5, refuted as stated: for `estimated_height = "5"` the code's depth is 15,
while `max(h, 10) * 3` is 30. -/
theorem buildingHeight_ne_maxFormula :
    buildingHeight (.str "5") = .fin 15 ∧ maxFormulaDepth (.str "5") = .fin 30 ∧
    buildingHeight (.str "5") ≠ maxFormulaDepth (.str "5") := by
  have h1 : buildingHeight (.str "5") = .fin 15 := buildingHeight_five
  have h2 : maxFormulaDepth (.str "5") = .fin 30 := by
    simp [maxFormulaDepth, toNumber_five, JsNum.max, JsNum.mul]; norm_num
  refine ⟨h1, h2, ?_⟩
  rw [h1, h2]
  simp

/-- C5, amended: the depth is `(h || 10) * 3` for the coerced number `h`, that is
`10 * 3` when `h` is `NaN` or 0 and `h * 3` otherwise; it agrees with
`max(h, 10) * 3` exactly when `h` is not `-Infinity` and, if finite, is 0 or at
least 10. -/
theorem buildingHeight_or_default (v : JsValue) :
    buildingHeight v =
      (if toNumber v = .nan ∨ toNumber v = .fin 0 then JsNum.fin 10 else toNumber v).mul
        (.fin 3) ∧
    (buildingHeight v = maxFormulaDepth v ↔
      toNumber v ≠ .negInf ∧ ∀ q, toNumber v = .fin q → q = 0 ∨ 10 ≤ q) := by
  constructor
  · by_cases h : toNumber v = .nan ∨ toNumber v = .fin 0
    · rw [if_pos h, buildingHeight_of_falsy v h]
      simp [JsNum.mul]; norm_num
    · rw [if_neg h]
      push_neg at h
      exact buildingHeight_of_truthy v h.1 h.2
  · cases hv : toNumber v with
    | nan => simp [buildingHeight, maxFormulaDepth, hv, JsNum.orElse, JsNum.truthy, JsNum.max]
    | posInf =>
      simp [buildingHeight, maxFormulaDepth, hv, JsNum.orElse, JsNum.truthy, JsNum.max]
    | negInf =>
      simp [buildingHeight, maxFormulaDepth, hv, JsNum.orElse, JsNum.truthy, JsNum.max,
        JsNum.mul]
    | fin q =>
      by_cases hq : q = 0
      · subst hq
        simp [buildingHeight, maxFormulaDepth, hv, JsNum.orElse, JsNum.truthy, JsNum.max,
          JsNum.mul]
      · simp only [buildingHeight, maxFormulaDepth, hv, JsNum.orElse, JsNum.truthy, JsNum.max,
          JsNum.mul, reduceCtorEq, decide_False, JsNum.fin.injEq, hq, Bool.or_self,
          Bool.not_false, if_true, if_false, ne_eq, not_false_eq_true, true_and, false_or,
          forall_eq']
        constructor
        · intro h
          have h3 : q * 3 = max q 10 * 3 := h
          have h4 : q = max q 10 := mul_right_cancel₀ (by norm_num) h3
          rw [h4]; exact le_max_right _ _
        · intro h
          rw [max_eq_left h]

/-- Witness of `buildingHeight_or_default`: for a numeric height of 12 the code
and the max formula agree. -/
theorem buildingHeight_or_default_witness :
    buildingHeight (.num (.fin 12)) = maxFormulaDepth (.num (.fin 12)) :=
  (buildingHeight_or_default (.num (.fin 12))).2.mpr
    ⟨by simp [toNumber], fun q hq => Or.inr (by
      have : q = 12 := by simpa [toNumber] using hq.symm
      rw [this]; norm_num)⟩

/-! ## Walkways -/



theorem tracePath_points (ring : Ring) :
    (tracePath ring).map PathCmd.point = ring.map fun coord => planar (projectCoord coord) := by
  unfold tracePath
  rw [List.map_map]
  have hfun : (PathCmd.point ∘ fun (p : ℕ × Coord) =>
      match p with
      | (i, coord) =>
        let (x, y) := projectCoord coord
        if i = 0 then PathCmd.moveTo (.fin x) (.fin y) else PathCmd.lineTo (.fin x) (.fin y)) =
      (fun coord => planar (projectCoord coord)) ∘ Prod.snd := by
    funext p
    obtain ⟨i, c⟩ := p
    simp only [Function.comp]
    split_ifs <;> rfl
  rw [hfun, ← List.map_map, List.enum_map_snd]

theorem filterByFill_of_properties (keep : JsValue → Bool) :
    ∀ fs : List Feature, (∀ f ∈ fs, f.properties.isSome = true) →
      filterByFill keep fs = some (fs.filter fun f => keep f.fill) := by
  intro fs
  induction fs with
  | nil => intro _; rfl
  | cons f fs ih =>
    intro h
    obtain ⟨p, hp⟩ := Option.isSome_iff_exists.mp (h f (by simp))
    have hrest := ih (fun g hg => h g (by simp [hg]))
    simp only [filterByFill, hp, hrest, List.filter_cons, Feature.fill]

theorem filterByFill_none (keep : JsValue → Bool) :
    ∀ fs : List Feature, (∃ f ∈ fs, f.properties = none) → filterByFill keep fs = none := by
  intro fs
  induction fs with
  | nil => rintro ⟨f, hf, _⟩; simp at hf
  | cons g fs ih =>
    rintro ⟨f, hf, hnone⟩
    cases hg : g.properties with
    | none => simp [filterByFill, hg]
    | some p =>
      have hmem : f ∈ fs := by
        rcases List.mem_cons.mp hf with h | h
        · rw [h, hg] at hnone; cases hnone
        · exact h
      simp [filterByFill, hg, ih ⟨f, hmem, hnone⟩]

theorem holePaths_of_paths :
    ∀ hs : List Feature, (∀ f ∈ hs, (outerPath f).isSome = true) →
      holePaths hs = some (hs.map fun f => (outerPath f).getD []) := by
  intro hs
  induction hs with
  | nil => intro _; rfl
  | cons f hs ih =>
    intro h
    obtain ⟨path, hpath⟩ := Option.isSome_iff_exists.mp (h f (by simp))
    have hrest := ih (fun g hg => h g (by simp [hg]))
    simp [holePaths, hpath, hrest]

theorem holePaths_none :
    ∀ hs : List Feature, (∃ f ∈ hs, outerPath f = none) → holePaths hs = none := by
  intro hs
  induction hs with
  | nil => rintro ⟨f, hf, _⟩; simp at hf
  | cons g hs ih =>
    rintro ⟨f, hf, hnone⟩
    cases hg : outerPath g with
    | none => simp [holePaths, hg]
    | some path =>
      have hmem : f ∈ hs := by
        rcases List.mem_cons.mp hf with h | h
        · rw [h, hg] at hnone; cases hnone
        · exact h
      simp [holePaths, hg, ih ⟨f, hmem, hnone⟩]

theorem addMainPolygons_length (allHolePaths : List Path) :
    ∀ ms : List Feature, (addMainPolygons allHolePaths ms).length =
      (ms.takeWhile fun f => (outerPath f).isSome).length := by
  intro ms
  induction ms with
  | nil => rfl
  | cons f ms ih =>
    cases hf : outerPath f with
    | none => simp [addMainPolygons, hf, List.takeWhile_cons]
    | some path => simp [addMainPolygons, hf, List.takeWhile_cons, ih]

theorem addMainPolygons_curves (allHolePaths : List Path) :
    ∀ ms : List Feature, (∀ f ∈ ms, (outerPath f).isSome = true) →
      (addMainPolygons allHolePaths ms).map (fun mesh => mesh.shape.curve) =
        ms.map fun f => (outerPath f).getD [] := by
  intro ms
  induction ms with
  | nil => intro _; rfl
  | cons f ms ih =>
    intro h
    obtain ⟨path, hpath⟩ := Option.isSome_iff_exists.mp (h f (by simp))
    have hrest := ih (fun g hg => h g (by simp [hg]))
    simp [addMainPolygons, hpath, hrest]

theorem addMainPolygons_holes (allHolePaths : List Path) :
    ∀ ms : List Feature, ∀ mesh ∈ addMainPolygons allHolePaths ms,
      mesh.shape.holes = allHolePaths := by
  intro ms
  induction ms with
  | nil => intro mesh h; simp [addMainPolygons] at h
  | cons f ms ih =>
    intro mesh h
    cases hf : outerPath f with
    | none => simp [addMainPolygons, hf] at h
    | some path =>
      simp only [addMainPolygons, hf, List.mem_cons] at h
      rcases h with h | h
      · rw [h]
      · exact ih mesh h

theorem outerPath_of_outerRing (f : Feature) (ring : Ring) (h : outerRing f = some ring) :
    outerPath f = some (tracePath ring) := by
  unfold outerRing at h
  unfold outerPath
  cases hg : f.geometry with
  | none => rw [hg] at h; cases h
  | some g =>
    rw [hg] at h
    cases g with
    | Polygon coordinates =>
      cases coordinates with
      | nil => cases h
      | cons r rest =>
        have hr : r = ring := Option.some.inj h
        rw [hr]
    | Point c => cases h
    | MultiPoint c => cases h
    | LineString c => cases h
    | MultiLineString c => cases h
    | MultiPolygon c => cases h
    | GeometryCollection => cases h

theorem outerPath_points_of_outerRing (f : Feature) (h : (outerRing f).isSome = true) :
    (outerPath f).isSome = true ∧
    ((outerPath f).getD []).map PathCmd.point = projectedOuterRing f := by
  obtain ⟨ring, hring⟩ := Option.isSome_iff_exists.mp h
  rw [outerPath_of_outerRing f ring hring]
  refine ⟨rfl, ?_⟩
  simp only [Option.getD_some, projectedOuterRing, hring]
  exact tracePath_points ring

theorem loadWalkways_eq (features : List Feature)
    (hprops : ∀ f ∈ features, f.properties.isSome = true)
    (hholes : ∀ f ∈ features, isHoleFeature f = true → (outerPath f).isSome = true) :
    loadWalkways (.json (some features)) =
      addMainPolygons ((features.filter isHoleFeature).map fun f => (outerPath f).getD [])
        (features.filter isMainFeature) := by
  have h1 := filterByFill_of_properties (fun fill => !isHoleFill fill) features hprops
  have h2 := filterByFill_of_properties isHoleFill features hprops
  have h3 := holePaths_of_paths (features.filter isHoleFeature) (by
    intro f hf
    obtain ⟨hmem, hhole⟩ := List.mem_filter.mp hf
    exact hholes f hmem hhole)
  have e1 : (features.filter fun f => !isHoleFill f.fill) = features.filter isMainFeature := rfl
  have e2 : (features.filter fun f => isHoleFill f.fill) = features.filter isHoleFeature := rfl
  rw [e1] at h1
  rw [e2] at h2
  simp only [loadWalkways, h1, h2, h3]

/-- C7, refuted as stated: a collection of one point feature, whose fill is not
`#ff0000`, yields no solid; and a main square followed by that point feature
yields one solid for two features whose fill is not `#ff0000`. -/
theorem loadWalkways_point_feature :
    ([pointWalkway].filter isMainFeature).length = 1 ∧
    (loadWalkways (.json (some [pointWalkway]))).length = 0 ∧
    ([mainWalkway, pointWalkway].filter isMainFeature).length = 2 ∧
    (loadWalkways (.json (some [mainWalkway, pointWalkway]))).length = 1 := by
  refine ⟨by decide, ?_, by decide, ?_⟩
  · simp [loadWalkways, filterByFill, holePaths, addMainPolygons, outerPath, pointWalkway,
      isHoleFill]
  · simp [loadWalkways, filterByFill, holePaths, addMainPolygons, outerPath, pointWalkway,
      mainWalkway, isHoleFill]

/-- C7, amended: for a walkway collection whose features all have a `properties`
object and a polygon geometry with an outer ring, `loadWalkways` adds one mesh
per feature whose fill is not `#ff0000`, in order, each traced from that
feature's projected outer ring, and the holes of every such mesh are the
projected outer rings of all features whose fill is `#ff0000`, in dataset order;
with one main and one hole feature it adds one mesh with exactly one hole.
Otherwise the callback throws at the malformed feature: no mesh when a feature
has no `properties` or the path of a hole feature cannot be traced, and else
only the meshes of the main features before the first one whose path cannot be
traced. -/
theorem loadWalkways_pools_holes (features : List Feature) :
    ((∀ f ∈ features, f.properties.isSome = true ∧ (outerRing f).isSome = true) →
      (loadWalkways (.json (some features))).length =
        (features.filter isMainFeature).length ∧
      (loadWalkways (.json (some features))).map
          (fun mesh => mesh.shape.curve.map PathCmd.point) =
        (features.filter isMainFeature).map projectedOuterRing ∧
      (∀ mesh ∈ loadWalkways (.json (some features)),
        mesh.shape.holes.map (fun hole => hole.map PathCmd.point) =
          (features.filter isHoleFeature).map projectedOuterRing) ∧
      ((features.filter isMainFeature).length = 1 →
        (features.filter isHoleFeature).length = 1 →
        ∃ mesh, loadWalkways (.json (some features)) = [mesh] ∧
          mesh.shape.holes.length = 1)) ∧
    ((∃ f ∈ features, f.properties = none) → loadWalkways (.json (some features)) = []) ∧
    ((∃ f ∈ features, isHoleFeature f = true ∧ outerPath f = none) →
      loadWalkways (.json (some features)) = []) ∧
    ((∀ f ∈ features, f.properties.isSome = true) →
      (∀ f ∈ features, isHoleFeature f = true → (outerPath f).isSome = true) →
      (loadWalkways (.json (some features))).length =
        ((features.filter isMainFeature).takeWhile fun f => (outerPath f).isSome).length) := by
  refine ⟨?_, ?_, ?_, ?_⟩
  · intro hwf
    have hprops : ∀ f ∈ features, f.properties.isSome = true := fun f hf => (hwf f hf).1
    have hpath : ∀ f ∈ features, (outerPath f).isSome = true := fun f hf =>
      (outerPath_points_of_outerRing f (hwf f hf).2).1
    have heq := loadWalkways_eq features hprops (fun f hf _ => hpath f hf)
    have hmain : ∀ f ∈ features.filter isMainFeature, (outerPath f).isSome = true :=
      fun f hf => hpath f (List.mem_filter.mp hf).1
    have hcurves := addMainPolygons_curves
      ((features.filter isHoleFeature).map fun f => (outerPath f).getD [])
      (features.filter isMainFeature) hmain
    have hlen : (loadWalkways (.json (some features))).length =
        (features.filter isMainFeature).length := by
      have := congrArg List.length hcurves
      rw [heq]
      simpa using this
    have hholes : ∀ mesh ∈ loadWalkways (.json (some features)),
        mesh.shape.holes.map (fun hole => hole.map PathCmd.point) =
          (features.filter isHoleFeature).map projectedOuterRing := by
      intro mesh hmesh
      rw [heq] at hmesh
      rw [addMainPolygons_holes _ _ mesh hmesh, List.map_map]
      apply List.map_congr_left
      intro f hf
      exact (outerPath_points_of_outerRing f (hwf f (List.mem_filter.mp hf).1).2).2
    refine ⟨hlen, ?_, hholes, ?_⟩
    · rw [heq]
      have : (addMainPolygons ((features.filter isHoleFeature).map fun f =>
            (outerPath f).getD []) (features.filter isMainFeature)).map
          (fun mesh => mesh.shape.curve.map PathCmd.point) =
          ((addMainPolygons ((features.filter isHoleFeature).map fun f =>
            (outerPath f).getD []) (features.filter isMainFeature)).map
            (fun mesh => mesh.shape.curve)).map (fun curve => curve.map PathCmd.point) := by
        rw [List.map_map]; rfl
      rw [this, hcurves, List.map_map]
      apply List.map_congr_left
      intro f hf
      exact (outerPath_points_of_outerRing f (hwf f (List.mem_filter.mp hf).1).2).2
    · intro h1 h2
      rw [← hlen] at h1
      obtain ⟨mesh, hmesh⟩ := List.length_eq_one.mp h1
      refine ⟨mesh, hmesh, ?_⟩
      have hm := hholes mesh (by rw [hmesh]; simp)
      have := congrArg List.length hm
      simpa [h2] using this
  · intro h
    simp [loadWalkways, filterByFill_none _ features h]
  · rintro ⟨f, hf, hhole, hnone⟩
    by_cases hprops : ∀ g ∈ features, g.properties.isSome = true
    · have h1 := filterByFill_of_properties (fun fill => !isHoleFill fill) features hprops
      have h2 := filterByFill_of_properties isHoleFill features hprops
      have e2 : (features.filter fun f => isHoleFill f.fill) =
          features.filter isHoleFeature := rfl
      rw [e2] at h2
      have h3 := holePaths_none (features.filter isHoleFeature)
        ⟨f, List.mem_filter.mpr ⟨hf, hhole⟩, hnone⟩
      simp only [loadWalkways, h1, h2, h3]
    · push_neg at hprops
      obtain ⟨g, hg, hgnone⟩ := hprops
      have hgn : g.properties = none := by
        cases hp : g.properties with
        | none => rfl
        | some p => rw [hp] at hgnone; simp at hgnone
      simp [loadWalkways, filterByFill_none _ features ⟨g, hg, hgn⟩]
  · intro hprops hholes
    rw [loadWalkways_eq features hprops hholes]
    exact addMainPolygons_length _ _

/-- Witness of `loadWalkways_pools_holes`: a main square and one hole feature. -/
theorem loadWalkways_pools_holes_witness :
    ∃ mesh, loadWalkways (.json (some [mainWalkway, holeWalkway])) = [mesh] ∧
      mesh.shape.holes.length = 1 :=
  ((loadWalkways_pools_holes [mainWalkway, holeWalkway]).1 (by
    intro f hf
    simp only [List.mem_cons, List.mem_singleton, List.not_mem_nil, or_false] at hf
    rcases hf with rfl | rfl <;> exact ⟨rfl, rfl⟩)).2.2.2 (by decide) (by decide)

/-! ## Iteration lemmas -/

theorem forEach_preserves {α : Type} (Q : LoadState → Prop)
    (body : LoadState → α → Completion)
    (hbody : ∀ s x, Q s → Q (body s x).state) :
    ∀ (xs : List α) (s : LoadState), Q s → Q (forEach body s xs).state := by
  intro xs
  induction xs with
  | nil => intro s hs; exact hs
  | cons x xs ih =>
    intro s hs
    have hx := hbody s x hs
    unfold forEach
    cases hb : body s x with
    | normal s1 =>
      rw [hb] at hx
      exact ih s1 hx
    | threw s1 =>
      rw [hb] at hx
      exact hx

theorem addFeature_preserves (Q : LoadState → Prop) (paletteSize : Nat) (fileName : String)
    (hpoly : ∀ feature s polygon0, Q s →
      Q (addPolygon paletteSize fileName feature s polygon0).state)
    (s : LoadState) (feature : Feature) (hs : Q s) :
    Q (addFeature paletteSize fileName s feature).state := by
  unfold addFeature
  cases feature.geometry with
  | none => exact hs
  | some g =>
    dsimp only
    cases polygonRings g with
    | none => exact hs
    | some polygons => exact forEach_preserves Q _ (hpoly feature) polygons s hs

theorem settle_preserves (Q : LoadState → Prop) (paletteSize : Nat) (fileName : String)
    (hpoly : ∀ feature s polygon0, Q s →
      Q (addPolygon paletteSize fileName feature s polygon0).state)
    (hcount : ∀ s, Q s → Q { s with loadedCount := s.loadedCount + 1 })
    (s : LoadState) (response : Response) (hs : Q s) :
    Q (settle paletteSize s fileName response) := by
  unfold settle
  cases response with
  | rejected => exact hs
  | json features =>
    cases features with
    | none => exact hs
    | some fs =>
      have h := forEach_preserves Q (addFeature paletteSize fileName)
        (fun s x => addFeature_preserves Q paletteSize fileName hpoly s x) fs s hs
      simp only [onData]
      cases hf : forEach (addFeature paletteSize fileName) s fs with
      | normal s1 =>
        rw [hf] at h
        exact hcount s1 h
      | threw s1 =>
        rw [hf] at h
        exact h

theorem settleAll_preserves (Q : LoadState → Prop) (paletteSize : Nat)
    (hpoly : ∀ fileName feature s polygon0, Q s →
      Q (addPolygon paletteSize fileName feature s polygon0).state)
    (hcount : ∀ s, Q s → Q { s with loadedCount := s.loadedCount + 1 }) :
    ∀ (arrivals : List (String × Response)) (s : LoadState), Q s →
      Q (settleAll paletteSize s arrivals) := by
  intro arrivals
  induction arrivals with
  | nil => intro s hs; exact hs
  | cons a rest ih =>
    intro s hs
    exact ih _ (settle_preserves Q paletteSize a.1 (hpoly a.1) hcount s a.2 hs)

/-! ## Material cursor -/

theorem addPolygon_cursorInv (paletteSize : Nat) (hP : 1 ≤ paletteSize) (fileName : String)
    (feature : Feature) (s : LoadState) (polygon0 : Option Ring)
    (hs : CursorInv paletteSize s) :
    CursorInv paletteSize (addPolygon paletteSize fileName feature s polygon0).state := by
  cases polygon0 with
  | none => exact hs
  | some ring =>
    obtain ⟨h1, h2⟩ := hs
    have hne : paletteSize ≠ 0 := by omega
    simp only [addPolygon, hne, if_false, Completion.state]
    refine ⟨by simp [h1], ?_⟩
    simp only [List.map_append, List.length_append, List.length_singleton, List.map_cons,
      List.map_nil, List.range_succ, h2, h1]

/-- C8: for every palette size `P ≥ 1`, after the building callbacks of any
arrivals have run from the initial state (cursor 0, empty scene), the `k`-th
mesh created has palette index `k mod P`, the cursor equals the number `M` of
meshes created, and each mesh creation advances the cursor by exactly one. -/
theorem materialCursor_cycles (paletteSize : Nat) (hP : 1 ≤ paletteSize)
    (arrivals : List (String × Response)) :
    (settleAll paletteSize LoadState.initial arrivals).buildingMaterialCursor =
      (settleAll paletteSize LoadState.initial arrivals).scene.length ∧
    (settleAll paletteSize LoadState.initial arrivals).scene.map
        (fun mesh => mesh.paletteIndex) =
      (List.range (settleAll paletteSize LoadState.initial arrivals).scene.length).map
        (fun k => k % paletteSize) ∧
    (∀ (k : Nat) (mesh : BuildingMesh),
      (settleAll paletteSize LoadState.initial arrivals).scene[k]? = some mesh →
      mesh.paletteIndex = k % paletteSize) ∧
    (∀ (fileName : String) (feature : Feature) (s : LoadState) (ring : Ring),
      addPolygon paletteSize fileName feature s (some ring) =
        .normal { s with
          buildingMaterialCursor := s.buildingMaterialCursor + 1
          scene := s.scene ++ [
            { shape := { curve := tracePath ring, holes := [] }
              depth := buildingHeight feature.estimatedHeight
              bevelEnabled := false
              paletteIndex := s.buildingMaterialCursor % paletteSize
              materialSerial := s.buildingMaterialCursor
              fileName := identityTag fileName
              castShadow := true
              receiveShadow := true }] }) := by
  have hinv : CursorInv paletteSize (settleAll paletteSize LoadState.initial arrivals) :=
    settleAll_preserves (CursorInv paletteSize) paletteSize
      (fun fileName feature s polygon0 hs =>
        addPolygon_cursorInv paletteSize hP fileName feature s polygon0 hs)
      (fun s hs => hs) arrivals LoadState.initial ⟨rfl, rfl⟩
  refine ⟨hinv.1, hinv.2, ?_, ?_⟩
  · intro k mesh hk
    have hmap : ((settleAll paletteSize LoadState.initial arrivals).scene.map
        (fun mesh => mesh.paletteIndex))[k]? = some mesh.paletteIndex := by
      rw [List.getElem?_map, hk]; rfl
    rw [hinv.2, List.getElem?_map] at hmap
    have hlt : k < (settleAll paletteSize LoadState.initial arrivals).scene.length := by
      by_contra hge
      rw [List.getElem?_eq_none (by omega)] at hk
      exact absurd hk (by simp)
    rw [List.getElem?_range hlt] at hmap
    simpa using hmap.symm
  · intro fileName feature s ring
    have hne : paletteSize ≠ 0 := by omega
    simp [addPolygon, hne]

/-- Witness of `materialCursor_cycles`: with a palette of three slots a document
of one square ends with the cursor at 1. -/
theorem materialCursor_cycles_witness :
    (settleAll 3 LoadState.initial
      [("building_1.geojson", .json (some [squareFeature]))]).buildingMaterialCursor =
    (settleAll 3 LoadState.initial
      [("building_1.geojson", .json (some [squareFeature]))]).scene.length :=
  (materialCursor_cycles 3 (by decide) _).1

/-! ## Per-source failure -/

theorem addPolygon_loadedCount (paletteSize : Nat) (fileName : String) (feature : Feature)
    (s : LoadState) (polygon0 : Option Ring) :
    (addPolygon paletteSize fileName feature s polygon0).state.loadedCount = s.loadedCount := by
  cases polygon0 with
  | none => rfl
  | some ring =>
    simp only [addPolygon]
    split_ifs <;> rfl

theorem forEach_addFeature_loadedCount (paletteSize : Nat) (fileName : String)
    (fs : List Feature) (s : LoadState) :
    (forEach (addFeature paletteSize fileName) s fs).state.loadedCount = s.loadedCount :=
  forEach_preserves (fun t => t.loadedCount = s.loadedCount) _
    (fun t x ht => addFeature_preserves (fun u => u.loadedCount = s.loadedCount) paletteSize
      fileName (fun feature u p hu =>
        (addPolygon_loadedCount paletteSize fileName feature u p).trans hu) t x ht) fs s rfl

theorem settle_loadedCount (paletteSize : Nat) (s : LoadState) (fileName : String)
    (response : Response) :
    (settle paletteSize s fileName response).loadedCount =
      s.loadedCount + (if succeeded paletteSize s fileName response then 1 else 0) := by
  cases response with
  | rejected => simp [settle, succeeded]
  | json features =>
    cases features with
    | none => simp [settle, succeeded, onData, Completion.state]
    | some fs =>
      have h := forEach_addFeature_loadedCount paletteSize fileName fs s
      have key : ∀ c : Completion, c.state.loadedCount = s.loadedCount →
          (match c with
            | .normal s1 => Completion.normal { s1 with loadedCount := s1.loadedCount + 1 }
            | .threw s1 => Completion.threw s1).state.loadedCount =
          s.loadedCount +
            (if (match (match c with
                | .normal s1 => Completion.normal { s1 with loadedCount := s1.loadedCount + 1 }
                | .threw s1 => Completion.threw s1) with
              | .normal _ => true
              | .threw _ => false) = true then 1 else 0) := by
        intro c hc
        cases c with
        | normal s1 => simpa [Completion.state] using hc
        | threw s1 => simpa [Completion.state] using hc
      exact key _ h

theorem addPolygon_extendsBy (paletteSize : Nat) (fileName : String) (feature : Feature)
    (s0 s : LoadState) (polygon0 : Option Ring) (hs : ExtendsBy (identityTag fileName) s0 s) :
    ExtendsBy (identityTag fileName) s0
      (addPolygon paletteSize fileName feature s polygon0).state := by
  cases polygon0 with
  | none => exact hs
  | some ring =>
    obtain ⟨extra, h1, h2⟩ := hs
    simp only [addPolygon]
    split_ifs with hP
    · exact ⟨extra, h1, h2⟩
    · unfold ExtendsBy
      simp only [Completion.state, h1, List.append_assoc]
      refine ⟨_, rfl, ?_⟩
      intro mesh hmesh
      rcases List.mem_append.mp hmesh with h | h
      · exact h2 mesh h
      · rw [List.mem_singleton.mp h]

theorem settle_extendsBy (paletteSize : Nat) (s : LoadState) (fileName : String)
    (response : Response) :
    ExtendsBy (identityTag fileName) s (settle paletteSize s fileName response) :=
  settle_preserves (ExtendsBy (identityTag fileName) s) paletteSize fileName
    (fun feature t p ht => addPolygon_extendsBy paletteSize fileName feature s t p ht)
    (fun _ ht => ht) s response ⟨[], by simp, by simp⟩

theorem sameEffect_threw (s t : LoadState) : SameEffect s t (.threw s) (.threw t) :=
  ⟨rfl, [], by simp [Completion.state], by simp [Completion.state]⟩

theorem addPolygon_sameEffect (paletteSize : Nat) (fileName : String) (feature : Feature)
    (s t : LoadState) (polygon0 : Option Ring) :
    SameEffect s t (addPolygon paletteSize fileName feature s polygon0)
      (addPolygon paletteSize fileName feature t polygon0) := by
  cases polygon0 with
  | none => exact sameEffect_threw s t
  | some ring =>
    simp only [addPolygon]
    split_ifs with hP
    · exact ⟨rfl, [], by simp [Completion.state], by simp [Completion.state]⟩
    · exact ⟨rfl, [{ shape := { curve := tracePath ring, holes := [] }
                     depth := buildingHeight feature.estimatedHeight
                     fileName := identityTag fileName }],
        by simp [Completion.state, BuildingMesh.footprint],
        by simp [Completion.state, BuildingMesh.footprint]⟩

theorem forEach_sameEffect {α : Type} (body : LoadState → α → Completion)
    (hbody : ∀ s t x, SameEffect s t (body s x) (body t x)) :
    ∀ (xs : List α) (s t : LoadState), SameEffect s t (forEach body s xs) (forEach body t xs) := by
  intro xs
  induction xs with
  | nil => intro s t; exact ⟨rfl, [], by simp [forEach, Completion.state],
      by simp [forEach, Completion.state]⟩
  | cons x xs ih =>
    intro s t
    obtain ⟨hn, e1, hs1, ht1⟩ := hbody s t x
    unfold forEach
    cases hb : body s x with
    | normal s1 =>
      cases hd : body t x with
      | normal t1 =>
        rw [hb] at hs1
        rw [hd] at ht1
        simp only [Completion.state] at hs1 ht1
        obtain ⟨hn2, e2, hs2, ht2⟩ := ih s1 t1
        refine ⟨hn2, e1 ++ e2, ?_, ?_⟩
        · rw [hs2, hs1, List.append_assoc]
        · rw [ht2, ht1, List.append_assoc]
      | threw t1 => rw [hb, hd] at hn; exact absurd hn (by simp [Completion.isNormal])
    | threw s1 =>
      cases hd : body t x with
      | normal t1 => rw [hb, hd] at hn; exact absurd hn (by simp [Completion.isNormal])
      | threw t1 =>
        rw [hb] at hs1
        rw [hd] at ht1
        exact ⟨rfl, e1, hs1, ht1⟩

theorem addFeature_sameEffect (paletteSize : Nat) (fileName : String) (s t : LoadState)
    (feature : Feature) :
    SameEffect s t (addFeature paletteSize fileName s feature)
      (addFeature paletteSize fileName t feature) := by
  unfold addFeature
  cases feature.geometry with
  | none => exact sameEffect_threw s t
  | some g =>
    dsimp only
    cases polygonRings g with
    | none => exact sameEffect_threw s t
    | some polygons =>
      exact forEach_sameEffect _ (addPolygon_sameEffect paletteSize fileName feature) polygons s t

theorem onData_sameEffect (paletteSize : Nat) (fileName : String) (s t : LoadState)
    (features : Option (List Feature)) :
    SameEffect s t (onData paletteSize fileName s features)
      (onData paletteSize fileName t features) := by
  cases features with
  | none => exact sameEffect_threw s t
  | some fs =>
    obtain ⟨hn, e, hs, ht⟩ :=
      forEach_sameEffect _ (addFeature_sameEffect paletteSize fileName) fs s t
    simp only [onData]
    cases hb : forEach (addFeature paletteSize fileName) s fs with
    | normal s1 =>
      cases hd : forEach (addFeature paletteSize fileName) t fs with
      | normal t1 =>
        rw [hb] at hs
        rw [hd] at ht
        exact ⟨rfl, e, hs, ht⟩
      | threw t1 => rw [hb, hd] at hn; exact absurd hn (by simp [Completion.isNormal])
    | threw s1 =>
      cases hd : forEach (addFeature paletteSize fileName) t fs with
      | normal t1 => rw [hb, hd] at hn; exact absurd hn (by simp [Completion.isNormal])
      | threw t1 =>
        rw [hb] at hs
        rw [hd] at ht
        exact ⟨rfl, e, hs, ht⟩

theorem succeeded_eq_isNormal (paletteSize : Nat) (s : LoadState) (fileName : String)
    (features : Option (List Feature)) :
    succeeded paletteSize s fileName (.json features) =
      (onData paletteSize fileName s features).isNormal := by
  simp only [succeeded]
  cases onData paletteSize fileName s features <;> rfl

theorem succeeded_congr (paletteSize : Nat) (s t : LoadState) (fileName : String)
    (response : Response) :
    succeeded paletteSize s fileName response = succeeded paletteSize t fileName response := by
  cases response with
  | rejected => rfl
  | json features =>
    rw [succeeded_eq_isNormal, succeeded_eq_isNormal]
    exact (onData_sameEffect paletteSize fileName s t features).1

theorem settle_footprints (paletteSize : Nat) (s t : LoadState) (fileName : String)
    (response : Response) :
    ∃ extra : List Footprint,
      (settle paletteSize s fileName response).scene.map BuildingMesh.footprint =
        s.scene.map BuildingMesh.footprint ++ extra ∧
      (settle paletteSize t fileName response).scene.map BuildingMesh.footprint =
        t.scene.map BuildingMesh.footprint ++ extra := by
  cases response with
  | rejected => exact ⟨[], by simp [settle], by simp [settle]⟩
  | json features => exact (onData_sameEffect paletteSize fileName s t features).2

theorem settleAll_loadedCount_congr (paletteSize : Nat) :
    ∀ (arrivals : List (String × Response)) (s t : LoadState),
      s.loadedCount = t.loadedCount →
      (settleAll paletteSize s arrivals).loadedCount =
        (settleAll paletteSize t arrivals).loadedCount := by
  intro arrivals
  induction arrivals with
  | nil => intro s t h; exact h
  | cons a rest ih =>
    intro s t h
    apply ih
    rw [settle_loadedCount, settle_loadedCount, h, succeeded_congr paletteSize s t]

theorem settleAll_othersOf_congr (tag : String) (paletteSize : Nat) :
    ∀ (arrivals : List (String × Response)) (s t : LoadState),
      othersOf tag s.scene = othersOf tag t.scene →
      othersOf tag (settleAll paletteSize s arrivals).scene =
        othersOf tag (settleAll paletteSize t arrivals).scene := by
  intro arrivals
  induction arrivals with
  | nil => intro s t h; exact h
  | cons a rest ih =>
    intro s t h
    apply ih
    obtain ⟨extra, hs, ht⟩ := settle_footprints paletteSize s t a.1 a.2
    unfold othersOf at h ⊢
    rw [hs, ht, List.filter_append, List.filter_append, h]

theorem settle_othersOf (paletteSize : Nat) (s : LoadState) (fileName : String)
    (response : Response) :
    othersOf (identityTag fileName) (settle paletteSize s fileName response).scene =
      othersOf (identityTag fileName) s.scene := by
  obtain ⟨extra, h1, h2⟩ := settle_extendsBy paletteSize s fileName response
  unfold othersOf
  rw [h1, List.map_append, List.filter_append]
  have : List.filter (fun x : Footprint => decide (x.fileName ≠ identityTag fileName))
      (extra.map BuildingMesh.footprint) = [] := by
    rw [List.filter_eq_nil_iff]
    intro x hx
    obtain ⟨mesh, hmesh, rfl⟩ := List.mem_map.mp hx
    simp [BuildingMesh.footprint, h2 mesh hmesh]
  rw [this, List.append_nil]

theorem identityTag_building_1 : identityTag "building_1.geojson" = "1" := by decide

theorem halfBrokenDocument_fails :
    succeeded 1 LoadState.initial "building_1.geojson" halfBrokenDocument = false := by
  simp [succeeded, onData, forEach, addFeature, addPolygon, polygonRings, squareFeature,
    brokenFeature, halfBrokenDocument, LoadState.initial]

/-- C2, refuted as stated: the source `building_1.geojson` whose document holds a
well-formed square followed by a feature without geometry fails (`loadedCount`
stays 0), yet the mesh of the square, tagged "1", is in the scene. -/
theorem settle_keeps_partial_meshes :
    succeeded 1 LoadState.initial "building_1.geojson" halfBrokenDocument = false ∧
    (settle 1 LoadState.initial "building_1.geojson" halfBrokenDocument).loadedCount = 0 ∧
    ((settle 1 LoadState.initial "building_1.geojson" halfBrokenDocument).scene.map
      fun mesh => mesh.fileName) = ["1"] ∧
    (settle 1 LoadState.initial "building_1.geojson" halfBrokenDocument).scene ≠
      LoadState.initial.scene := by
  have hscene : ((settle 1 LoadState.initial "building_1.geojson" halfBrokenDocument).scene.map
      fun mesh => mesh.fileName) = ["1"] := by
    simp [settle, onData, forEach, addFeature, addPolygon, polygonRings, squareFeature,
      brokenFeature, halfBrokenDocument, LoadState.initial, Completion.state,
      identityTag_building_1]
  refine ⟨halfBrokenDocument_fails, ?_, hscene, ?_⟩
  · simp [settle, onData, forEach, addFeature, addPolygon, polygonRings, squareFeature,
      brokenFeature, halfBrokenDocument, LoadState.initial, Completion.state]
  · intro h
    rw [h] at hscene
    simp [LoadState.initial] at hscene

theorem meshesFrom_append (paletteSize : Nat) (fileName : String) :
    ∀ (a b : List (Feature × Ring)) (cursor : Nat),
      meshesFrom paletteSize fileName cursor (a ++ b) =
        meshesFrom paletteSize fileName cursor a ++
          meshesFrom paletteSize fileName (cursor + a.length) b := by
  intro a
  induction a with
  | nil => intro b cursor; simp [meshesFrom]
  | cons x a ih =>
    intro b cursor
    obtain ⟨feature, ring⟩ := x
    have hstep := ih b (cursor + 1)
    rw [show cursor + 1 + a.length = cursor + (a.length + 1) by omega] at hstep
    show meshAt paletteSize fileName cursor feature ring ::
        meshesFrom paletteSize fileName (cursor + 1) (a ++ b) =
      meshAt paletteSize fileName cursor feature ring ::
        meshesFrom paletteSize fileName (cursor + 1) a ++
          meshesFrom paletteSize fileName (cursor + (a.length + 1)) b
    rw [hstep, List.cons_append]

theorem advance_nil (paletteSize : Nat) (fileName : String) (s : LoadState) :
    advance paletteSize fileName s [] = s := by
  cases s
  simp [advance, meshesFrom]

theorem advance_append (paletteSize : Nat) (fileName : String) (s : LoadState)
    (a b : List (Feature × Ring)) :
    advance paletteSize fileName (advance paletteSize fileName s a) b =
      advance paletteSize fileName s (a ++ b) := by
  simp only [advance, meshesFrom_append, List.append_assoc, List.length_append, Nat.add_assoc]

theorem addPolygon_some (paletteSize : Nat) (hP : 1 ≤ paletteSize) (fileName : String)
    (feature : Feature) (s : LoadState) (ring : Ring) :
    addPolygon paletteSize fileName feature s (some ring) =
      .normal (advance paletteSize fileName s [(feature, ring)]) := by
  have hne : paletteSize ≠ 0 := by omega
  simp [addPolygon, hne, advance, meshesFrom, meshAt]

theorem forEach_addPolygon (paletteSize : Nat) (hP : 1 ≤ paletteSize) (fileName : String)
    (feature : Feature) :
    ∀ (polygons : List (Option Ring)) (s : LoadState),
      forEach (addPolygon paletteSize fileName feature) s polygons =
        Completion.of (polygons.all Option.isSome)
          (advance paletteSize fileName s
            ((ringsBefore polygons).map fun ring => (feature, ring))) := by
  intro polygons
  induction polygons with
  | nil =>
    intro s
    simp [forEach, ringsBefore, Completion.of, advance_nil]
  | cons polygon0 rest ih =>
    intro s
    cases polygon0 with
    | none => simp [forEach, addPolygon, ringsBefore, Completion.of, advance_nil]
    | some ring =>
      simp only [forEach, addPolygon_some paletteSize hP, ih, advance_append, ringsBefore,
        List.map_cons, List.all_cons, Option.isSome_some, Bool.true_and, List.singleton_append]

theorem forEach_addFeature (paletteSize : Nat) (hP : 1 ≤ paletteSize) (fileName : String) :
    ∀ (features : List Feature) (s : LoadState),
      (forEach (addFeature paletteSize fileName) s features).state =
        advance paletteSize fileName s (builtBeforeFeatures features) := by
  intro features
  induction features with
  | nil =>
    intro s
    simp [forEach, builtBeforeFeatures, Completion.state, advance_nil]
  | cons feature rest ih =>
    intro s
    simp only [forEach, addFeature, builtBeforeFeatures]
    cases hg : feature.geometry with
    | none => simp [Completion.state, advance_nil]
    | some g =>
      simp only [Option.some_bind]
      cases hp : polygonRings g with
      | none => simp [Completion.state, advance_nil]
      | some polygons =>
        simp only [forEach_addPolygon paletteSize hP]
        cases hall : polygons.all Option.isSome with
        | false => simp [Completion.of, Completion.state]
        | true =>
          simp only [Completion.of, if_true]
          rw [ih, advance_append]

theorem settle_scene (paletteSize : Nat) (hP : 1 ≤ paletteSize) (s : LoadState)
    (fileName : String) (response : Response) :
    (settle paletteSize s fileName response).scene =
      s.scene ++ meshesFrom paletteSize fileName s.buildingMaterialCursor
        (builtBefore response) := by
  cases response with
  | rejected => simp [settle, builtBefore, meshesFrom]
  | json features =>
    cases features with
    | none => simp [settle, onData, Completion.state, builtBefore, meshesFrom]
    | some fs =>
      have h := forEach_addFeature paletteSize hP fileName fs s
      simp only [settle, onData, builtBefore]
      cases hf : forEach (addFeature paletteSize fileName) s fs with
      | normal s1 =>
        rw [hf] at h
        simp only [Completion.state] at h ⊢
        rw [h]; rfl
      | threw s1 =>
        rw [hf] at h
        simp only [Completion.state] at h ⊢
        rw [h]; rfl

theorem settle_scene_of_empty_palette (s : LoadState) (fileName : String)
    (response : Response) : (settle 0 s fileName response).scene = s.scene :=
  settle_preserves (fun t => t.scene = s.scene) 0 fileName
    (fun feature t polygon0 ht => by
      cases polygon0 with
      | none => exact ht
      | some ring => simpa [addPolygon, Completion.state] using ht)
    (fun _ ht => ht) s response rfl

/-- C2, amended: when a building source fails, `loadedCount` is not incremented;
the scene keeps what it held and gains exactly the meshes built, in order, from
the polygons of that source that precede the failing point (all tagged with
that source), none at all when the fetch or the decoding failed, `features` is
missing or the palette is empty; and the rest of the batch is processed as if
the failing source were not there: same final `loadedCount`, same meshes of
other tags up to the material slot. -/
theorem failed_source_effect (paletteSize : Nat) (s : LoadState)
    (before after : List (String × Response)) (fileName : String) (response : Response)
    (hfail : succeeded paletteSize (settleAll paletteSize s before) fileName response = false) :
    (settle paletteSize (settleAll paletteSize s before) fileName response).loadedCount =
      (settleAll paletteSize s before).loadedCount ∧
    (∃ extra,
      (settle paletteSize (settleAll paletteSize s before) fileName response).scene =
        (settleAll paletteSize s before).scene ++ extra ∧
      ∀ mesh ∈ extra, mesh.fileName = identityTag fileName) ∧
    (response = .rejected ∨ response = .json none →
      settle paletteSize (settleAll paletteSize s before) fileName response =
        settleAll paletteSize s before) ∧
    (settleAll paletteSize s (before ++ (fileName, response) :: after)).loadedCount =
      (settleAll paletteSize s (before ++ after)).loadedCount ∧
    othersOf (identityTag fileName)
        (settleAll paletteSize s (before ++ (fileName, response) :: after)).scene =
      othersOf (identityTag fileName) (settleAll paletteSize s (before ++ after)).scene ∧
    (1 ≤ paletteSize →
      (settle paletteSize (settleAll paletteSize s before) fileName response).scene =
        (settleAll paletteSize s before).scene ++
          meshesFrom paletteSize fileName
            (settleAll paletteSize s before).buildingMaterialCursor (builtBefore response)) ∧
    (paletteSize = 0 →
      (settle paletteSize (settleAll paletteSize s before) fileName response).scene =
        (settleAll paletteSize s before).scene) := by
  have hcount :
      (settle paletteSize (settleAll paletteSize s before) fileName response).loadedCount =
        (settleAll paletteSize s before).loadedCount := by
    rw [settle_loadedCount, hfail]; simp
  have hsplit1 : settleAll paletteSize s (before ++ (fileName, response) :: after) =
      settleAll paletteSize
        (settle paletteSize (settleAll paletteSize s before) fileName response) after := by
    simp [settleAll, List.foldl_append]
  have hsplit2 : settleAll paletteSize s (before ++ after) =
      settleAll paletteSize (settleAll paletteSize s before) after := by
    simp [settleAll, List.foldl_append]
  refine ⟨hcount, settle_extendsBy paletteSize _ fileName response, ?_, ?_, ?_, ?_, ?_⟩
  · rintro (h | h) <;> subst h <;> rfl
  · rw [hsplit1, hsplit2]
    exact settleAll_loadedCount_congr paletteSize after _ _ hcount
  · rw [hsplit1, hsplit2]
    exact settleAll_othersOf_congr _ paletteSize after _ _
      (settle_othersOf paletteSize _ fileName response)
  · intro hP
    exact settle_scene paletteSize hP _ fileName response
  · intro hP
    subst hP
    exact settle_scene_of_empty_palette _ fileName response

theorem builtBefore_halfBrokenDocument :
    builtBefore halfBrokenDocument =
      [(squareFeature, [(20.96, 41.985), (20.961, 41.985), (20.961, 41.986),
        (20.96, 41.986)])] := by
  simp [builtBefore, halfBrokenDocument, builtBeforeFeatures, squareFeature, brokenFeature,
    polygonRings, ringsBefore]

/-- Witness of `failed_source_effect`: the half-broken document arriving after a
sound one leaves the mesh of its square in the scene, behind the meshes already
there. -/
theorem failed_source_effect_witness :
    (settle 1
      (settleAll 1 LoadState.initial
        [("building_2.geojson", Response.json (some [squareFeature]))])
      "building_1.geojson" halfBrokenDocument).scene =
    (settleAll 1 LoadState.initial
      [("building_2.geojson", Response.json (some [squareFeature]))]).scene ++
      meshesFrom 1 "building_1.geojson"
        (settleAll 1 LoadState.initial
          [("building_2.geojson",
            Response.json (some [squareFeature]))]).buildingMaterialCursor
        [(squareFeature, [(20.96, 41.985), (20.961, 41.985), (20.961, 41.986),
          (20.96, 41.986)])] :=
  builtBefore_halfBrokenDocument ▸
    (failed_source_effect 1 LoadState.initial
      [("building_2.geojson", Response.json (some [squareFeature]))]
      [("building_3.geojson", Response.json (some [squareFeature]))]
      "building_1.geojson" halfBrokenDocument
      (by rw [succeeded_congr 1 _ LoadState.initial]
          exact halfBrokenDocument_fails)).2.2.2.2.2.1 (by decide)

/-! ## The batch controller -/

theorem filter_range'_length_le (reached : Nat → Bool) (a n : Nat) :
    ((List.range' a n).filter reached).length ≤ n := by
  have h := List.length_filter_le reached (List.range' a n)
  simpa using h

theorem filter_range'_length_lt (reached : Nat → Bool) (a n i : Nat) (h1 : a ≤ i)
    (h2 : i < a + n) (hi : reached i = false) :
    ((List.range' a n).filter reached).length < n := by
  have h : ((List.range' a n).filter reached).length < (List.range' a n).length :=
    List.length_filter_lt_length_iff_exists.mpr ⟨i, by simp [h1, h2], by simp [hi]⟩
  simpa using h

theorem loadBatch_first (reached : Nat → Bool) :
    loadBatch reached { startIndex := 0, loadedCount := 0 } =
      some { startIndex := 100
             loadedCount := ((List.range' 0 100).filter reached).length } := by
  have h := filter_range'_length_le reached 0 100
  simp only [loadBatch, buildingsPerBatch, buildingFileCount]
  norm_num
  omega

theorem loadBatch_idle (reached : Nat → Bool) (c : Nat) (hc : c < 114) :
    loadBatch reached { startIndex := 114, loadedCount := c } =
      some { startIndex := 114, loadedCount := c } := by
  simp only [loadBatch, buildingsPerBatch, buildingFileCount]
  norm_num
  omega

theorem loadBatch_second_of_failure (reached : Nat → Bool) (i : Nat) (hi : i < 114)
    (hfail : reached i = false) :
    ∃ c, c < 114 ∧
      loadBatch reached
          { startIndex := 100
            loadedCount := ((List.range' 0 100).filter reached).length } =
        some { startIndex := 114, loadedCount := c } := by
  have h1 := filter_range'_length_le reached 0 100
  have h2 := filter_range'_length_le reached 100 14
  have hlt : ((List.range' 0 100).filter reached).length +
      ((List.range' 100 14).filter reached).length < 114 := by
    by_cases hlow : i < 100
    · have := filter_range'_length_lt reached 0 100 i (by omega) (by omega) hfail
      omega
    · have := filter_range'_length_lt reached 100 14 i (by omega) (by omega) hfail
      omega
  refine ⟨_, hlt, ?_⟩
  simp only [loadBatch, buildingsPerBatch, buildingFileCount]
  norm_num
  intro hge
  omega

/-- C1, where the code departs from the claim: as soon as one of the 114 sources
never reaches `loadedCount++`, every call of `loadBatch` schedules another one:
from the third call on each is `loadBatch(114)` over an empty batch with the
same `loadedCount < 114`. With no failing source the second call is the last. -/
theorem loadBatch_reschedules_forever (reached : Nat → Bool) (i : Nat)
    (hi : i < buildingFileCount) (hfail : reached i = false) :
    (∃ c, c < buildingFileCount ∧
      ∀ n, 2 ≤ n → batchCall reached n = some { startIndex := 114, loadedCount := c }) ∧
    (∀ n, (batchCall reached n).isSome = true) ∧
    batchCall (fun _ => true) 2 = none := by
  obtain ⟨c, hc, hsecond⟩ := loadBatch_second_of_failure reached i hi hfail
  have h1 : batchCall reached 1 =
      some { startIndex := 100
             loadedCount := ((List.range' 0 100).filter reached).length } := by
    simp only [batchCall, Option.some_bind]
    exact loadBatch_first reached
  have h2 : ∀ n, 2 ≤ n → batchCall reached n = some { startIndex := 114, loadedCount := c } := by
    intro n hn
    induction n with
    | zero => omega
    | succ k ih =>
      by_cases hk : k = 1
      · subst hk
        show (batchCall reached 1).bind (loadBatch reached) = _
        rw [h1, Option.some_bind]
        exact hsecond
      · show (batchCall reached k).bind (loadBatch reached) = _
        rw [ih (by omega), Option.some_bind]
        exact loadBatch_idle reached c hc
  refine ⟨⟨c, hc, h2⟩, ?_, ?_⟩
  · intro n
    match n with
    | 0 => rfl
    | 1 => rw [h1]; rfl
    | k + 2 => rw [h2 (k + 2) (by omega)]; rfl
  · have hall : ∀ a n, ((List.range' a n).filter fun _ => true).length = n := by
      intro a n; simp
    have e1 : batchCall (fun _ => true) 1 = some { startIndex := 100, loadedCount := 100 } := by
      simp only [batchCall, Option.some_bind]
      rw [loadBatch_first, hall]
    show (batchCall (fun _ => true) 1).bind (loadBatch fun _ => true) = none
    rw [e1, Option.some_bind]
    simp only [loadBatch, buildingsPerBatch, buildingFileCount]
    norm_num

/-- Witness of `loadBatch_reschedules_forever`: when only `building_1.geojson`
fails, the thousandth call is still scheduled. -/
theorem loadBatch_reschedules_forever_witness :
    (batchCall (fun i => decide (i ≠ 0)) 1000).isSome = true :=
  (loadBatch_reschedules_forever (fun i => decide (i ≠ 0)) 0 (by decide) (by decide)).2.1 1000

/-! ## Hit test and highlight -/

theorem emissiveOf_eq_some (s : HighlightState) (o : SceneObject) (m : Nat) :
    emissiveOf s (some o) = some m ↔ o.material = some m ∧ (s.emissive m).isSome = true := by
  simp only [emissiveOf]
  cases hmat : o.material with
  | none => simp
  | some k =>
    by_cases hk : (s.emissive k).isSome = true
    · simp only [hk, if_true, Option.some.injEq]
      constructor
      · intro h; subst h; exact ⟨rfl, hk⟩
      · intro h; exact h.1
    · simp only [hk, if_false]
      constructor
      · intro h; cases h
      · intro h
        have hkm : k = m := Option.some.inj h.1
        rw [← hkm] at h
        exact absurd h.2 hk

theorem emissiveOf_none_eq (s : HighlightState) : emissiveOf s none = none := rfl

theorem highlightBuilding_eq (s : HighlightState) (mesh : Option SceneObject) :
    highlightBuilding s mesh =
      match emissiveOf (resetPrevious s) mesh with
      | some m => { setHex (resetPrevious s) m highlightColor with highlightedBuilding := mesh }
      | none => { resetPrevious s with highlightedBuilding := none } := rfl

theorem resetPrevious_isSome (s : HighlightState) (k : Nat) :
    ((resetPrevious s).emissive k).isSome = (s.emissive k).isSome := by
  unfold resetPrevious
  cases hb : s.highlightedBuilding with
  | none => rfl
  | some o =>
    cases he : emissiveOf s (some o) with
    | none => rfl
    | some m =>
      have hm := (emissiveOf_eq_some s o m).1 he
      simp only [setHex]
      by_cases hk : k = m
      · subst hk; simp [hm.2]
      · simp [hk]

theorem resetPrevious_allNeutral (scene : List SceneObject) (s : HighlightState)
    (hinv : HighlightInv scene s) : AllNeutral (resetPrevious s) := by
  intro k c hc
  by_contra hne
  unfold resetPrevious at hc
  cases hb : s.highlightedBuilding with
  | none =>
    rw [hb] at hc
    simp only [emissiveOf_none_eq] at hc
    obtain ⟨o, ho, _⟩ := hinv.1 k c hc hne
    rw [hb] at ho
    cases ho
  | some o =>
    obtain ⟨_, m, hm, hcol⟩ := hinv.2 o hb
    have he : emissiveOf s (some o) = some m :=
      (emissiveOf_eq_some s o m).2 ⟨hm, by simp [hcol]⟩
    rw [hb, he] at hc
    simp only [setHex] at hc
    by_cases hk : k = m
    · subst hk
      simp at hc
      exact hne hc.symm
    · simp only [hk, if_false] at hc
      obtain ⟨o2, ho2, hm2⟩ := hinv.1 k c hc hne
      rw [hb] at ho2
      cases ho2
      rw [hm] at hm2
      cases hm2
      exact hk rfl

theorem emissiveOf_resetPrevious (s : HighlightState) (mesh : Option SceneObject) :
    emissiveOf (resetPrevious s) mesh = emissiveOf s mesh := by
  cases mesh with
  | none => rfl
  | some o =>
    simp only [emissiveOf]
    cases o.material with
    | none => rfl
    | some m => simp only [resetPrevious_isSome]

theorem resetPrevious_highlighted (s : HighlightState) :
    (resetPrevious s).highlightedBuilding = s.highlightedBuilding := by
  unfold resetPrevious
  cases emissiveOf s s.highlightedBuilding <;> rfl

/-- What `highlightBuilding` leaves behind when the mesh has an emissive. -/
theorem highlightBuilding_some (s : HighlightState) (o : SceneObject) (m : Nat)
    (hm : emissiveOf s (some o) = some m) :
    (highlightBuilding s (some o)).highlightedBuilding = some o ∧
    (highlightBuilding s (some o)).emissive m = some highlightColor ∧
    (∀ k, k ≠ m → (highlightBuilding s (some o)).emissive k = (resetPrevious s).emissive k) := by
  rw [highlightBuilding_eq, emissiveOf_resetPrevious, hm]
  refine ⟨rfl, by simp [setHex], ?_⟩
  intro k hk
  simp [setHex, hk]

/-- What `highlightBuilding` leaves behind when the mesh has no emissive. -/
theorem highlightBuilding_none (s : HighlightState) (mesh : Option SceneObject)
    (hm : emissiveOf s mesh = none) :
    (highlightBuilding s mesh).highlightedBuilding = none ∧
    (highlightBuilding s mesh).emissive = (resetPrevious s).emissive := by
  rw [highlightBuilding_eq, emissiveOf_resetPrevious, hm]
  exact ⟨rfl, rfl⟩

theorem highlightBuilding_isSome (s : HighlightState) (mesh : Option SceneObject) (k : Nat) :
    ((highlightBuilding s mesh).emissive k).isSome = (s.emissive k).isSome := by
  rw [highlightBuilding_eq]
  cases he : emissiveOf (resetPrevious s) mesh with
  | none => exact resetPrevious_isSome s k
  | some m =>
    cases mesh with
    | none => simp [emissiveOf] at he
    | some o =>
      have hm := (emissiveOf_eq_some _ o m).1 he
      rw [← resetPrevious_isSome s k]
      simp only [setHex]
      by_cases hk : k = m
      · subst hk; simp [hm.2]
      · simp [hk]

theorem highlightBuilding_inv (scene : List SceneObject) (s : HighlightState)
    (hinv : HighlightInv scene s) (mesh : Option SceneObject) (hmesh : Within scene mesh) :
    HighlightInv scene (highlightBuilding s mesh) := by
  have hneutral := resetPrevious_allNeutral scene s hinv
  cases he : emissiveOf s mesh with
  | none =>
    obtain ⟨h1, h2⟩ := highlightBuilding_none s mesh he
    constructor
    · intro k c hc hne
      rw [h2] at hc
      exact absurd (hneutral k c hc) hne
    · intro o ho
      rw [h1] at ho
      cases ho
  | some m =>
    cases mesh with
    | none => simp [emissiveOf] at he
    | some o =>
      obtain ⟨h1, h2, h3⟩ := highlightBuilding_some s o m he
      have hmat := ((emissiveOf_eq_some s o m).1 he).1
      constructor
      · intro k c hc hne
        by_cases hk : k = m
        · subst hk
          exact ⟨o, h1, hmat⟩
        · rw [h3 k hk] at hc
          exact absurd (hneutral k c hc) hne
      · intro o2 ho2
        rw [h1] at ho2
        cases ho2
        exact ⟨hmesh, m, hmat, h2⟩

theorem step_inv (scene : List SceneObject) (s : HighlightState)
    (hinv : HighlightInv scene s) (a : Action) (ha : a.Within scene) :
    HighlightInv scene (step s a) := by
  cases a with
  | highlight mesh => exact highlightBuilding_inv scene s hinv mesh ha
  | click intersects =>
    cases intersects with
    | nil => exact highlightBuilding_inv scene s hinv none trivial
    | cons o rest =>
      simp only [step, handlePointerClick]
      split_ifs
      · exact highlightBuilding_inv scene s hinv (some o) (ha o (by simp))
      · exact hinv

theorem run_inv (scene : List SceneObject) :
    ∀ (actions : List Action) (s : HighlightState), HighlightInv scene s →
      (∀ a ∈ actions, a.Within scene) → HighlightInv scene (run s actions) := by
  intro actions
  induction actions with
  | nil => intro s hs _; exact hs
  | cons a rest ih =>
    intro s hs hall
    exact ih (step s a) (step_inv scene s hs a (hall a (by simp)))
      (fun b hb => hall b (by simp [hb]))

theorem step_isSome (s : HighlightState) (a : Action) (k : Nat) :
    ((step s a).emissive k).isSome = (s.emissive k).isSome := by
  cases a with
  | highlight mesh => exact highlightBuilding_isSome s mesh k
  | click intersects =>
    cases intersects with
    | nil => exact highlightBuilding_isSome s none k
    | cons o rest =>
      simp only [step, handlePointerClick]
      split_ifs
      · exact highlightBuilding_isSome s (some o) k
      · rfl

theorem run_isSome :
    ∀ (actions : List Action) (s : HighlightState) (k : Nat),
      ((run s actions).emissive k).isSome = (s.emissive k).isSome := by
  intro actions
  induction actions with
  | nil => intro s k; rfl
  | cons a rest ih =>
    intro s k
    exact (ih (step s a) k).trans (step_isSome s a k)

theorem initial_inv (scene : List SceneObject) (s0 : HighlightState)
    (h0 : s0.highlightedBuilding = none) (hneutral : AllNeutral s0) :
    HighlightInv scene s0 := by
  constructor
  · intro m c hc hne
    exact absurd (hneutral m c hc) hne
  · intro o ho
    rw [h0] at ho
    cases ho

theorem lit_iff (s : HighlightState) (o : SceneObject) :
    lit s o = true ↔ ∃ m c, o.material = some m ∧ s.emissive m = some c ∧ c ≠ neutral := by
  simp only [lit]
  cases hmat : o.material with
  | none => simp
  | some m =>
    cases hc : s.emissive m with
    | none => simp [hc]
    | some c => simp [hc]

theorem inv_lit_highlighted (scene : List SceneObject) (hown : OwnMaterials scene)
    (s : HighlightState) (hinv : HighlightInv scene s) (o : SceneObject) (ho : o ∈ scene)
    (hlit : lit s o = true) : s.highlightedBuilding = some o := by
  obtain ⟨m, c, hmat, hc, hne⟩ := (lit_iff s o).1 hlit
  obtain ⟨o2, ho2, hm2⟩ := hinv.1 m c hc hne
  have hmem := (hinv.2 o2 ho2).1
  rw [ho2, hown o2 hmem o ho m hm2 hmat]

theorem inv_highlighted_lit (scene : List SceneObject) (s : HighlightState)
    (hinv : HighlightInv scene s) (o : SceneObject) (ho : s.highlightedBuilding = some o) :
    o ∈ scene ∧ lit s o = true := by
  obtain ⟨hmem, m, hmat, hc⟩ := hinv.2 o ho
  exact ⟨hmem, (lit_iff s o).2 ⟨m, highlightColor, hmat, hc, by decide⟩⟩

theorem lit_false_of_emissive (s : HighlightState) (hneutral : AllNeutral s)
    (o : SceneObject) : lit s o = false := by
  cases hl : lit s o with
  | false => rfl
  | true =>
    obtain ⟨m, c, _, hc, hne⟩ := (lit_iff s o).1 hl
    exact absurd (hneutral m c hc) hne

theorem emissiveOf_isSome_congr (s t : HighlightState)
    (h : ∀ k, (t.emissive k).isSome = (s.emissive k).isSome) (mesh : Option SceneObject) :
    emissiveOf t mesh = emissiveOf s mesh := by
  cases mesh with
  | none => rfl
  | some o =>
    simp only [emissiveOf]
    cases o.material with
    | none => rfl
    | some m => simp only [h]

/-- C4: from a state with nothing highlighted and every emissive neutral, in a
scene where each solid owns its material, after any sequence of clicks and
`highlightBuilding` calls a solid with a non-neutral emissive is
`highlightedBuilding`, and `highlightedBuilding` is such a solid, so at most one
solid is lit; highlighting `A` and then clicking the tagged solid `B` leaves `A`
neutral and `B` highlighted, and a click on empty space after that leaves no
solid highlighted. -/
theorem highlight_exclusive (scene : List SceneObject) (hown : OwnMaterials scene)
    (s0 : HighlightState) (h0 : s0.highlightedBuilding = none) (hneutral : AllNeutral s0)
    (actions : List Action) (hact : ∀ a ∈ actions, a.Within scene) :
    (∀ o ∈ scene, lit (run s0 actions) o = true →
      (run s0 actions).highlightedBuilding = some o) ∧
    (∀ o, (run s0 actions).highlightedBuilding = some o →
      o ∈ scene ∧ lit (run s0 actions) o = true) ∧
    (∀ a ∈ scene, ∀ b ∈ scene,
      lit (run s0 actions) a = true → lit (run s0 actions) b = true → a = b) ∧
    (∀ A ∈ scene, ∀ B ∈ scene, ∀ rest : List SceneObject, A ≠ B → tagged B = true →
      (emissiveOf s0 (some A)).isSome = true → (emissiveOf s0 (some B)).isSome = true →
      emissiveColor
        (handlePointerClick (highlightBuilding (run s0 actions) (some A)) (B :: rest)) A =
        some neutral ∧
      emissiveColor
        (handlePointerClick (highlightBuilding (run s0 actions) (some A)) (B :: rest)) B =
        some highlightColor ∧
      (handlePointerClick (highlightBuilding (run s0 actions) (some A))
        (B :: rest)).highlightedBuilding = some B ∧
      (handlePointerClick
        (handlePointerClick (highlightBuilding (run s0 actions) (some A)) (B :: rest))
        []).highlightedBuilding = none ∧
      ∀ o ∈ scene, lit
        (handlePointerClick
          (handlePointerClick (highlightBuilding (run s0 actions) (some A)) (B :: rest))
          []) o = false) := by
  have hinv : HighlightInv scene (run s0 actions) :=
    run_inv scene actions s0 (initial_inv scene s0 h0 hneutral) hact
  refine ⟨fun o ho hl => inv_lit_highlighted scene hown _ hinv o ho hl,
    fun o ho => inv_highlighted_lit scene _ hinv o ho, ?_, ?_⟩
  · intro a ha b hb hla hlb
    have e1 := inv_lit_highlighted scene hown _ hinv a ha hla
    have e2 := inv_lit_highlighted scene hown _ hinv b hb hlb
    rw [e1] at e2
    exact Option.some.inj e2
  · intro A hA B hB rest hAB htag hAe hBe
    obtain ⟨mA, hmA⟩ := Option.isSome_iff_exists.mp hAe
    obtain ⟨mB, hmB⟩ := Option.isSome_iff_exists.mp hBe
    have hA0 := (emissiveOf_eq_some s0 A mA).1 hmA
    have hB0 := (emissiveOf_eq_some s0 B mB).1 hmB
    have hne : mA ≠ mB := by
      intro h
      rw [h] at hA0
      exact hAB (hown A hA B hB mB hA0.1 hB0.1)
    -- the state after highlighting `A`
    have hinv1 : HighlightInv scene (highlightBuilding (run s0 actions) (some A)) :=
      highlightBuilding_inv scene _ hinv (some A) hA
    have hsome1 : ∀ k, ((highlightBuilding (run s0 actions) (some A)).emissive k).isSome =
        (s0.emissive k).isSome := fun k =>
      (highlightBuilding_isSome _ _ k).trans (run_isSome actions s0 k)
    have hB1 : emissiveOf (highlightBuilding (run s0 actions) (some A)) (some B) = some mB :=
      (emissiveOf_isSome_congr s0 _ hsome1 (some B)).trans hmB
    -- the click on `B`
    have hclick : handlePointerClick (highlightBuilding (run s0 actions) (some A)) (B :: rest) =
        highlightBuilding (highlightBuilding (run s0 actions) (some A)) (some B) := by
      simp [handlePointerClick, htag]
    obtain ⟨hb2, hcol2, hrest2⟩ := highlightBuilding_some _ B mB hB1
    have hinv2 := highlightBuilding_inv scene _ hinv1 (some B) hB
    have hneutral1 := resetPrevious_allNeutral scene _ hinv1
    have hAcol : (highlightBuilding (highlightBuilding (run s0 actions) (some A))
        (some B)).emissive mA = some neutral := by
      rw [hrest2 mA hne]
      have hs : ((resetPrevious (highlightBuilding (run s0 actions) (some A))).emissive
          mA).isSome = true := by
        rw [resetPrevious_isSome, hsome1]; exact hA0.2
      obtain ⟨c, hc⟩ := Option.isSome_iff_exists.mp hs
      rw [hc, hneutral1 mA c hc]
    -- the click on empty space
    have hempty : ∀ t : HighlightState, handlePointerClick t [] = highlightBuilding t none :=
      fun _ => rfl
    obtain ⟨hb3, hem3⟩ := highlightBuilding_none
      (highlightBuilding (highlightBuilding (run s0 actions) (some A)) (some B)) none rfl
    have hneutral2 := resetPrevious_allNeutral scene _ hinv2
    rw [hclick, hempty]
    refine ⟨?_, ?_, hb2, hb3, ?_⟩
    · simp only [emissiveColor, hA0.1]; exact hAcol
    · simp only [emissiveColor, hB0.1]; exact hcol2
    · intro o _
      apply lit_false_of_emissive
      intro k c hc
      rw [hem3] at hc
      exact hneutral2 k c hc

theorem sampleScene_owns : OwnMaterials sampleScene := by
  intro a ha b hb m hma hmb
  simp only [sampleScene, List.mem_cons, List.mem_singleton, List.not_mem_nil, or_false] at ha hb
  rcases ha with rfl | rfl | rfl <;> rcases hb with rfl | rfl | rfl <;>
    first
    | rfl
    | (exfalso
       simp only [groundObject, buildingA, buildingB, Option.some.injEq] at hma hmb
       omega)

/-- Witness of `highlight_exclusive`: in the sample scene, after a click on
building `A`, highlighting `A`, clicking `B` and clicking empty space leaves no
highlight. -/
theorem highlight_exclusive_witness :
    (handlePointerClick
      (handlePointerClick
        (highlightBuilding (run HighlightState.initial [.click [buildingA]]) (some buildingA))
        (buildingB :: [groundObject])) []).highlightedBuilding = none :=
  ((highlight_exclusive sampleScene sampleScene_owns HighlightState.initial rfl
      (fun _ _ h => (Option.some.inj h).symm) [.click [buildingA]]
      (by
        intro a ha
        rw [List.mem_singleton.mp ha]
        intro o ho
        rw [List.mem_singleton.mp ho]
        simp [sampleScene])).2.2.2
    buildingA (by simp [sampleScene]) buildingB (by simp [sampleScene]) [groundObject]
    (by decide) (by decide) (by decide) (by decide)).2.2.2.1

/-- C3, refuted as stated: with building `B` highlighted, a click whose nearest
hit is the untagged ground leaves `B` highlighted and its emissive at the
highlight colour. -/
theorem click_untagged_keeps_highlight :
    tagged groundObject = false ∧
    (handlePointerClick (handlePointerClick HighlightState.initial [buildingB])
      [groundObject]).highlightedBuilding = some buildingB ∧
    (handlePointerClick (handlePointerClick HighlightState.initial [buildingB])
      [groundObject]).highlightedBuilding ≠ none ∧
    (handlePointerClick (handlePointerClick HighlightState.initial [buildingB])
      [groundObject]).emissive 2 = some highlightColor := by
  refine ⟨by decide, by decide, by decide, by decide⟩

/-- C3, amended: a click with no intersection clears the highlight:
`highlightedBuilding` becomes `null` and the emissive of the previously
highlighted solid is reset to `0x000000`; a click whose nearest hit carries no
identity tag leaves the whole highlight state unchanged. -/
theorem handlePointerClick_untagged_or_empty (s : HighlightState) :
    (handlePointerClick s []).highlightedBuilding = none ∧
    (∀ o m, s.highlightedBuilding = some o → o.material = some m →
      (s.emissive m).isSome = true → (handlePointerClick s []).emissive m = some neutral) ∧
    (∀ (mesh : SceneObject) (rest : List SceneObject), tagged mesh = false →
      handlePointerClick s (mesh :: rest) = s) := by
  obtain ⟨h1, h2⟩ := highlightBuilding_none s none rfl
  refine ⟨h1, ?_, ?_⟩
  · intro o m ho hmat hsome
    show (highlightBuilding s none).emissive m = some neutral
    rw [h2]
    have he : emissiveOf s (some o) = some m := (emissiveOf_eq_some s o m).2 ⟨hmat, hsome⟩
    simp [resetPrevious, ho, he, setHex]
  · intro mesh rest htag
    simp [handlePointerClick, htag]

/-- Witness of `handlePointerClick_untagged_or_empty`: with `B` highlighted, a
click on empty space resets the emissive of `B`, and a click on the ground
changes nothing. -/
theorem handlePointerClick_untagged_or_empty_witness :
    (handlePointerClick (handlePointerClick HighlightState.initial [buildingB]) []).emissive 2 =
        some neutral ∧
    handlePointerClick (handlePointerClick HighlightState.initial [buildingB])
        [groundObject] = handlePointerClick HighlightState.initial [buildingB] :=
  ⟨(handlePointerClick_untagged_or_empty
      (handlePointerClick HighlightState.initial [buildingB])).2.1 buildingB 2
      (by decide) (by decide) (by decide),
    (handlePointerClick_untagged_or_empty
      (handlePointerClick HighlightState.initial [buildingB])).2.2 groundObject []
      (by decide)⟩

end Neighborhood
